import Mathlib

/-!
# Host pool simulator (`pkg/generators/host_generator.go`)

A shallow embedding of `NewHostsSimulator` and `HostsSimulator.Generate`.

* Go `int` is 64 bits wide and its values are carried as integers; `%` and `/`
  are the truncating `Int.tmod` and `Int.tdiv`, and a zero divisor is a fault.
  The one `int` sum of the source, `hostCount/scrapeIntervalSeconds+1`, wraps.
* `time.Duration` is a count of nanoseconds that wraps at 64 bits.
* `map[int][]devops.Host` is an association list with unique keys; a key that
  is not in the map reads as the nil slice (`none`).
* The external collaborators (`devops.NewHost`, `devops.MachineTagKeys`,
  `labels.MetricName`, `SimulatedMeasurement.ToPoint` and `Tick`) are fields
  of `Collaborators`; the state of a measurement is a value of a type `M`.
* A panic is a `Fault` result; `Generate` returns, next to its result, the
  pool as the call leaves it. The measurements of a host are shared by
  reference between the pool and the loop variable `host`, so the pool sees
  `host.TickAll`.
* The capacity of `make([]devops.Host, 0, hostCount/scrapeIntervalSeconds+1)`
  is computed in `int`, wrapping at 64 bits, and a negative capacity is the
  panic of `make`; how much memory the platform can allocate is not modelled.
-/

namespace Generators

/-! ## Time -/

/-- A `time.Duration`: nanoseconds, an int64. -/
abbrev Duration := Int

/-- Two's complement wrap of an integer to 64 bits. -/
def wrapInt64 (x : Int) : Int := (x + 2 ^ 63) % 2 ^ 64 - 2 ^ 63

/-- The constant `time.Second`. -/
def Second : Duration := 1000000000

/-- The expression `time.Duration(n) * time.Second`. -/
def secondsDuration (n : Int) : Duration := wrapInt64 (n * Second)

/-- A `time.Time`, as nanoseconds since the Unix epoch. -/
structure Time where
  nanos : Int
deriving DecidableEq, Repr

/-- The method `Time.Add`. -/
def Time.Add (t : Time) (d : Duration) : Time := ⟨t.nanos + d⟩

/-- The method `Time.Unix`: whole seconds since the epoch, rounded down. -/
def Time.Unix (t : Time) : Int := t.nanos / 1000000000

/-! ## float64 -/

/-- A float64 value. A finite value is given by the rational number it
denotes (negative zero apart). -/
inductive Float64 where
  | finite (q : ℚ)
  | negZero
  | inf (negative : Bool)
  | nan
deriving DecidableEq

/-- Number of low bits that a natural number has beyond a 53 bit significand. -/
def excessBits : Nat → Nat → Nat
  | 0, _ => 0
  | fuel + 1, a => if a < 2 ^ 53 then 0 else excessBits fuel (a / 2) + 1

/-- Round a magnitude below `2 ^ 64` to the nearest float64, ties to even. -/
def roundMagnitude (a : Nat) : Nat :=
  let e := excessBits 64 a
  let q := a / 2 ^ e
  let r := a % 2 ^ e
  if 2 * r < 2 ^ e then q * 2 ^ e
  else if 2 ^ e < 2 * r then (q + 1) * 2 ^ e
  else if q % 2 = 0 then q * 2 ^ e
  else (q + 1) * 2 ^ e

/-- The conversions `float64(int(v))` and `float64(int64(v))`. -/
def float64OfInt (v : Int) : Float64 :=
  if v < 0 then .finite (-(roundMagnitude v.natAbs : ℚ)) else .finite (roundMagnitude v.natAbs : ℚ)

/-! ## Points, hosts and series -/

/-- The dynamic value of one field of a point (`interface{}`): the three kinds
the type switch accepts, and any other kind with the name `%T` prints. -/
inductive FieldValue where
  | int (v : Int)
  | int64 (v : Int)
  | float64 (v : Float64)
  | other (typeName : String)
deriving DecidableEq

/-- The fields of `common.Point` that `Generate` reads. -/
structure Point where
  MeasurementName : String
  FieldKeys : List String
  FieldValues : List FieldValue
  Timestamp : Time
deriving DecidableEq

/-- The blank point of `common.MakeUsablePoint()`: no name, no fields; its
timestamp is to be set by `ToPoint`. -/
def MakeUsablePoint : Point :=
  { MeasurementName := "", FieldKeys := [], FieldValues := [], Timestamp := ⟨0⟩ }

/-- A `devops.Host`: its measurements and its ten identity fields. -/
structure Host (M : Type) where
  SimulatedMeasurements : List M
  Name : String
  Region : String
  Datacenter : String
  Rack : String
  OS : String
  Arch : String
  Team : String
  Service : String
  ServiceVersion : String
  ServiceEnvironment : String
deriving DecidableEq

/-- The external code the generator calls. -/
structure Collaborators (M : Type) where
  /-- The constructor `devops.NewHost(seed1, seed2, start)`. -/
  NewHost : Int → Int → Time → Host M
  /-- The table `devops.MachineTagKeys`, by index. -/
  MachineTagKeys : Nat → String
  /-- The constant `labels.MetricName`. -/
  MetricName : String
  /-- The method `measurement.ToPoint(p)`: the point `p` as the measurement fills it. -/
  ToPoint : M → Point → Point
  /-- The method `measurement.Tick(d)`. -/
  Tick : M → Duration → M

/-- The method `host.TickAll(d)`: every measurement of the host is ticked by `d`. -/
def Host.TickAll {M : Type} (c : Collaborators M) (host : Host M) (d : Duration) : Host M :=
  { host with SimulatedMeasurements := host.SimulatedMeasurements.map (fun m => c.Tick m d) }

/-- A `prompb.Label`. -/
structure Label where
  Name : String
  Value : String
deriving DecidableEq, Repr

/-- A `prompb.Sample`. -/
structure Sample where
  Value : Float64
  Timestamp : Int
deriving DecidableEq

/-- A `prompb.TimeSeries`. -/
structure TimeSeries where
  Labels : List Label
  Samples : List Sample
deriving DecidableEq

/-- The ways a call can panic. -/
inductive Fault where
  /-- The runtime error of `%` or `/` with a zero divisor. -/
  | divideByZero
  /-- The runtime error of `make` with a negative capacity. -/
  | makesliceCap
  /-- The runtime error of an index that is not below the length. -/
  | indexOutOfRange (index length : Nat)
  /-- An explicit `panic` with its message. -/
  | panic (msg : String)
deriving DecidableEq, Repr

/-! ## The map of buckets -/

/-- A `map[int][]α`: key and slice pairs. -/
abbrev HostMap (α : Type) := List (Int × List α)

/-- The read `hosts[k]`; `none` is the nil slice of a missing key. -/
def HostMap.get? {α : Type} : HostMap α → Int → Option (List α)
  | [], _ => none
  | (k0, v) :: rest, k => if k0 = k then some v else HostMap.get? rest k

/-- The write `hosts[k] = v`. -/
def HostMap.set {α : Type} : HostMap α → Int → List α → HostMap α
  | [], k, v => [(k, v)]
  | (k0, v0) :: rest, k, v => if k0 = k then (k0, v) :: rest else (k0, v0) :: HostMap.set rest k v

/-- The keys of the map. -/
def HostMap.keys {α : Type} (m : HostMap α) : List Int := m.map Prod.fst

/-- The pool of hosts. -/
structure HostsSimulator (M : Type) where
  hosts : HostMap (Host M)
  scrapeIntervalSeconds : Int

/-! ## NewHostsSimulator -/

/-- The first loop of `NewHostsSimulator`: one empty slice per offset. The
capacity `hostCount/scrapeIntervalSeconds+1` is an `int`: the sum wraps at 64
bits, and `make` panics when the capacity is negative. -/
def allocBuckets {α : Type} (hostCount scrapeIntervalSeconds : Int) : Except Fault (HostMap α) :=
  (List.range scrapeIntervalSeconds.toNat).foldlM
    (fun (hosts : HostMap α) (i : Nat) =>
      if wrapInt64 (hostCount.tdiv scrapeIntervalSeconds + 1) < 0 then .error .makesliceCap
      else .ok (hosts.set (i : Int) []))
    []

/-- The second loop of `NewHostsSimulator`, with the host of iteration `i`
at offset `o` given by `mk i o`. -/
def placeHosts {α : Type} (mk : Nat → Int → α) (hostCount scrapeIntervalSeconds : Int)
    (hosts : HostMap α) : Except Fault (HostMap α) :=
  (List.range hostCount.toNat).foldlM
    (fun (hosts : HostMap α) (i : Nat) =>
      if scrapeIntervalSeconds = 0 then .error .divideByZero
      else
        let intervalOffsetSeconds := (i : Int).tmod scrapeIntervalSeconds
        .ok (hosts.set intervalOffsetSeconds
          ((hosts.get? ((i : Int).tmod scrapeIntervalSeconds)).getD [] ++ [mk i intervalOffsetSeconds])))
    hosts

/-- Both loops of `NewHostsSimulator`. -/
def buildHosts {α : Type} (mk : Nat → Int → α) (hostCount scrapeIntervalSeconds : Int) :
    Except Fault (HostMap α) :=
  (allocBuckets hostCount scrapeIntervalSeconds).bind (placeHosts mk hostCount scrapeIntervalSeconds)

/-- The host that iteration `i` of the second loop constructs: the seeds are
draws `2 * i` and `2 * i + 1` of `rand.Int()`. -/
def hostAt {M : Type} (c : Collaborators M) (rnd : Nat → Int) (start : Time) (i : Nat)
    (intervalOffsetSeconds : Int) : Host M :=
  c.NewHost (rnd (2 * i)) (rnd (2 * i + 1)) (start.Add (secondsDuration intervalOffsetSeconds))

/-- The constructor `NewHostsSimulator(hostCount, scrapeIntervalSeconds, start)`;
`rnd` is the sequence of values that `rand.Int()` returns. -/
def NewHostsSimulator {M : Type} (c : Collaborators M) (rnd : Nat → Int)
    (hostCount scrapeIntervalSeconds : Int) (start : Time) : Except Fault (HostsSimulator M) :=
  (buildHosts (hostAt c rnd start) hostCount scrapeIntervalSeconds).map
    (fun hosts => { hosts := hosts, scrapeIntervalSeconds := scrapeIntervalSeconds })

/-- The host indices per bucket: the same two loops, storing the index of
each host in place of the host. -/
def indexBuckets (hostCount scrapeIntervalSeconds : Int) : Except Fault (HostMap Nat) :=
  buildHosts (fun i _ => i) hostCount scrapeIntervalSeconds

/-! ## Generate -/

/-- The message of the panic in the default case of the type switch:
`fmt.Sprintf("Cannot field %s with value type: %T with ", fieldName, v)`. -/
def panicMessage (fieldName typeName : String) : String :=
  "Cannot field " ++ fieldName ++ " with value type: " ++ typeName ++ " with "

/-- The type switch on `p.FieldValues[i]`: the value as a float64, or the panic. -/
def fieldValueToFloat (fieldName : String) : FieldValue → Except Fault Float64
  | .int v => .ok (float64OfInt v)
  | .int64 v => .ok (float64OfInt v)
  | .float64 v => .ok v
  | .other typeName => .error (.panic (panicMessage fieldName typeName))

/-- The slice literal `labels` of one series. -/
def makeLabels {M : Type} (c : Collaborators M) (host : Host M) (p : Point) (fieldName : String) :
    List Label :=
  [ { Name := c.MachineTagKeys 0, Value := host.Name },
    { Name := c.MachineTagKeys 1, Value := host.Region },
    { Name := c.MachineTagKeys 2, Value := host.Datacenter },
    { Name := c.MachineTagKeys 3, Value := host.Rack },
    { Name := c.MachineTagKeys 4, Value := host.OS },
    { Name := c.MachineTagKeys 5, Value := host.Arch },
    { Name := c.MachineTagKeys 6, Value := host.Team },
    { Name := c.MachineTagKeys 7, Value := host.Service },
    { Name := c.MachineTagKeys 8, Value := host.ServiceVersion },
    { Name := c.MachineTagKeys 9, Value := host.ServiceEnvironment },
    { Name := "measurement", Value := fieldName },
    { Name := c.MetricName, Value := p.MeasurementName } ]

/-- The series appended to `allSeries` for one field. -/
def makeSeries {M : Type} (c : Collaborators M) (host : Host M) (p : Point) (fieldName : String)
    (val : Float64) : TimeSeries :=
  { Labels := makeLabels c host p fieldName,
    Samples := [{ Value := val, Timestamp := p.Timestamp.Unix }] }

/-- The loop `for i, fieldName := range p.FieldKeys`, from index `i` on: the
series it appends, or the panic that ends it. -/
def pointSeries {M : Type} (c : Collaborators M) (host : Host M) (p : Point) :
    Nat → List String → Except Fault (List TimeSeries)
  | _, [] => .ok []
  | i, fieldName :: rest =>
    match p.FieldValues[i]? with
    | none => .error (.indexOutOfRange i p.FieldValues.length)
    | some v =>
      match fieldValueToFloat fieldName v with
      | .error e => .error e
      | .ok val =>
        match pointSeries c host p (i + 1) rest with
        | .error e => .error e
        | .ok series => .ok (makeSeries c host p fieldName val :: series)

/-- The point of a measurement: `p := common.MakeUsablePoint(); measurement.ToPoint(p)`. -/
def currentPoint {M : Type} (c : Collaborators M) (measurement : M) : Point :=
  c.ToPoint measurement MakeUsablePoint

/-- The loop `for _, measurement := range host.SimulatedMeasurements`. -/
def hostSeries {M : Type} (c : Collaborators M) (host : Host M) :
    List M → Except Fault (List TimeSeries)
  | [] => .ok []
  | measurement :: rest =>
    match pointSeries c host (currentPoint c measurement) 0 (currentPoint c measurement).FieldKeys with
    | .error e => .error e
    | .ok series =>
      match hostSeries c host rest with
      | .error e => .error e
      | .ok more => .ok (series ++ more)

/-- The loop `for _, host := range hosts`: the series appended, or the panic,
and the hosts as the loop leaves them; a host is ticked once its measurements
have been read. -/
def generateHosts {M : Type} (c : Collaborators M) (d : Duration) :
    List (Host M) → Except Fault (List TimeSeries) × List (Host M)
  | [] => (.ok [], [])
  | host :: rest =>
    match hostSeries c host host.SimulatedMeasurements with
    | .error e => (.error e, host :: rest)
    | .ok series =>
      match generateHosts c d rest with
      | (.error e, rest1) => (.error e, host.TickAll c d :: rest1)
      | (.ok more, rest1) => (.ok (series ++ more), host.TickAll c d :: rest1)

/-- The method `Generate(offsetSeconds)`: the result (`none` is the nil slice)
or the panic, and the pool after the call. -/
def Generate {M : Type} (c : Collaborators M) (h : HostsSimulator M) (offsetSeconds : Int) :
    Except Fault (Option (List TimeSeries)) × HostsSimulator M :=
  match h.hosts.get? offsetSeconds with
  | none => (.ok none, h)
  | some hosts =>
    let r := generateHosts c (secondsDuration h.scrapeIntervalSeconds) hosts
    (r.1.map some, { hosts := h.hosts.set offsetSeconds r.2,
                     scrapeIntervalSeconds := h.scrapeIntervalSeconds })

/-- The pools of a run: the pool that `NewHostsSimulator` returns for
`hostCount` and `scrapeIntervalSeconds`, and every pool that a call of
`Generate` leaves behind. -/
inductive Built {M : Type} (c : Collaborators M) (hostCount scrapeIntervalSeconds : Int) :
    HostsSimulator M → Prop where
  | new (rnd : Nat → Int) (start : Time) (h : HostsSimulator M) :
      NewHostsSimulator c rnd hostCount scrapeIntervalSeconds start = .ok h →
      Built c hostCount scrapeIntervalSeconds h
  | generate (h : HostsSimulator M) (offsetSeconds : Int) :
      Built c hostCount scrapeIntervalSeconds h →
      Built c hostCount scrapeIntervalSeconds (Generate c h offsetSeconds).2

/-! ## Vocabulary of the properties -/

/-- The value kinds the type switch accepts. -/
def FieldValue.supported : FieldValue → Bool
  | .other _ => false
  | _ => true

/-- The fields of a point: each field key with the value at the same index.
A key without a value has no field. -/
def Point.fields (p : Point) : List (String × FieldValue) := p.FieldKeys.zip p.FieldValues

/-- Every field key of the point has a value, and of a supported kind. -/
def Point.supported (p : Point) : Bool :=
  decide (p.FieldKeys.length ≤ p.FieldValues.length) && p.fields.all (fun f => f.2.supported)

/-- The name that `%T` prints for the value. -/
def FieldValue.typeName : FieldValue → String
  | .int _ => "int"
  | .int64 _ => "int64"
  | .float64 _ => "float64"
  | .other typeName => typeName

/-- The value of `val` after the type switch: the converted value, and the
initial `0.0` for a kind without a case. -/
def FieldValue.toFloat64 : FieldValue → Float64
  | .int v => float64OfInt v
  | .int64 v => float64OfInt v
  | .float64 v => v
  | .other _ => .finite 0

/-- The point has a value for each of its field keys. -/
def Point.wellFormed (p : Point) : Prop := p.FieldKeys.length ≤ p.FieldValues.length

instance (p : Point) : Decidable p.wellFormed :=
  inferInstanceAs (Decidable (p.FieldKeys.length ≤ p.FieldValues.length))

/-- One field as `Generate` reads it: the host and the point it belongs to,
its key and its value. -/
structure FieldRead (M : Type) where
  host : Host M
  point : Point
  fieldName : String
  value : FieldValue

/-- The fields of the current points of the measurements `ms` of `host`, in
the order measurement, then field. -/
def hostFields {M : Type} (c : Collaborators M) (host : Host M) (ms : List M) :
    List (FieldRead M) :=
  ms.flatMap (fun measurement =>
    (currentPoint c measurement).fields.map (fun f =>
      { host := host, point := currentPoint c measurement, fieldName := f.1, value := f.2 }))

/-- The fields that a call on a bucket reads, in the order host, then
measurement, then field. -/
def bucketFields {M : Type} (c : Collaborators M) (hosts : List (Host M)) : List (FieldRead M) :=
  hosts.flatMap (fun host => hostFields c host host.SimulatedMeasurements)

/-- The series that `Generate` appends for one field. -/
def FieldRead.series {M : Type} (c : Collaborators M) (x : FieldRead M) : TimeSeries :=
  makeSeries c x.host x.point x.fieldName x.value.toFloat64

/-! ## Closed forms used in the proofs -/

/-- The map with the keys `ks` and the slice `f k` under key `k`. -/
def tabulateOn {α : Type} (ks : List Nat) (f : Nat → List α) : HostMap α :=
  ks.map (fun (k : Nat) => ((k : Int), f k))

/-- The map with the keys `0 .. n - 1` and the slice `f k` under key `k`. -/
def tabulate {α : Type} (n : Nat) (f : Nat → List α) : HostMap α :=
  tabulateOn (List.range n) f

/-- The indices below `hostCount` that leave the remainder `k` modulo `n`. -/
def bucketIndices (hostCount n k : Nat) : List Nat :=
  (List.range hostCount).filter (fun i => i % n = k)

/-- The outcome of reading the fields `xs` in order: the panic of the first
field of an unsupported kind, or one series per field. -/
def readResult {M : Type} (c : Collaborators M) (xs : List (FieldRead M)) :
    Except Fault (List TimeSeries) :=
  match xs.find? (fun x => !x.value.supported) with
  | some x => .error (.panic (panicMessage x.fieldName x.value.typeName))
  | none => .ok (xs.map (fun x => makeSeries c x.host x.point x.fieldName x.value.toFloat64))

/-! ## A concrete collaborator

A measurement whose state is the point it reports; a tick moves its timestamp. -/

/-- A host named `name` with the given measurements. -/
def sampleHost {M : Type} (name : String) (measurements : List M) : Host M :=
  { SimulatedMeasurements := measurements, Name := name, Region := "eu-west-1",
    Datacenter := "eu-west-1a", Rack := "7", OS := "Ubuntu16.10", Arch := "x64",
    Team := "NYC", Service := "18", ServiceVersion := "1", ServiceEnvironment := "production" }

/-- The point with the fields `usage_user = 42` (an int) and `load1 = 0.5` (a float). -/
def cpuPoint (t : Time) : Point :=
  { MeasurementName := "cpu", FieldKeys := ["usage_user", "load1"],
    FieldValues := [.int 42, .float64 (.finite (1 / 2))], Timestamp := t }

/-- A point with a string field. -/
def stringPoint (t : Time) : Point :=
  { MeasurementName := "cpu", FieldKeys := ["usage_user", "hostname"],
    FieldValues := [.int 42, .other "string"], Timestamp := t }

/-- A point with two field keys and one value. -/
def shortPoint (t : Time) : Point :=
  { MeasurementName := "cpu", FieldKeys := ["usage_user", "load1"],
    FieldValues := [.int 42], Timestamp := t }

/-- The names of the ten tag keys. -/
def sampleTagKeys : Nat → String
  | 0 => "hostname"
  | 1 => "region"
  | 2 => "datacenter"
  | 3 => "rack"
  | 4 => "os"
  | 5 => "arch"
  | 6 => "team"
  | 7 => "service"
  | 8 => "service_version"
  | _ => "service_environment"

/-- Collaborators whose measurements are points: `newPoint` is the
measurement of a new host. -/
def pointCollaborators (newPoint : Time → Point) : Collaborators Point :=
  { NewHost := fun _ _ start => sampleHost "host_0" [newPoint start],
    MachineTagKeys := sampleTagKeys,
    MetricName := "__name__",
    ToPoint := fun m p =>
      { MeasurementName := m.MeasurementName, FieldKeys := p.FieldKeys ++ m.FieldKeys,
        FieldValues := p.FieldValues ++ m.FieldValues, Timestamp := m.Timestamp },
    Tick := fun m d => { m with Timestamp := m.Timestamp.Add d } }

/-- Collaborators whose hosts report `cpuPoint`. -/
def sampleCollaborators : Collaborators Point := pointCollaborators cpuPoint

/-- Collaborators whose hosts report `stringPoint`. -/
def stringCollaborators : Collaborators Point := pointCollaborators stringPoint

/-- A bucket of two hosts. -/
def sampleBucket : List (Host Point) :=
  [sampleHost "host_0" [cpuPoint ⟨0⟩], sampleHost "host_2" [cpuPoint ⟨0⟩]]

/-- A pool of three hosts with a scrape interval of two seconds. -/
def samplePool : HostsSimulator Point :=
  { hosts := [(0, sampleBucket), (1, [sampleHost "host_1" [cpuPoint ⟨1000000000⟩]])],
    scrapeIntervalSeconds := 2 }

/-- The series that `Generate` returns for `sampleBucket`. -/
def sampleSeries : List TimeSeries :=
  (bucketFields sampleCollaborators sampleBucket).map (FieldRead.series sampleCollaborators)

/-- A bucket of one host whose second field is a string. -/
def stringBucket : List (Host Point) := [sampleHost "host_0" [stringPoint ⟨0⟩]]

/-- A pool of one host whose second field is a string. -/
def stringPool : HostsSimulator Point :=
  { hosts := [(0, stringBucket)], scrapeIntervalSeconds := 1 }

/-- Collaborators whose hosts report `shortPoint`. -/
def shortCollaborators : Collaborators Point := pointCollaborators shortPoint

/-- A bucket of one host whose point lacks the value of its second field. -/
def shortBucket : List (Host Point) := [sampleHost "host_0" [shortPoint ⟨0⟩]]

/-- A pool of one host whose point lacks the value of its second field. -/
def shortPool : HostsSimulator Point :=
  { hosts := [(0, shortBucket)], scrapeIntervalSeconds := 1 }

/-! ## Further vocabulary and sample pools -/

/-- The ten identity fields of a host, in the order of the labels. -/
def Host.identity {M : Type} (host : Host M) : List String :=
  [host.Name, host.Region, host.Datacenter, host.Rack, host.OS, host.Arch, host.Team,
    host.Service, host.ServiceVersion, host.ServiceEnvironment]

/-- Collaborators whose new host reports `cpuPoint` when its first seed is `0`, and
`stringPoint` otherwise. -/
def seedCollaborators : Collaborators Point :=
  { sampleCollaborators with
    NewHost := fun seed1 _ start =>
      sampleHost "host_0" [if seed1 = 0 then cpuPoint start else stringPoint start] }

/-- The draws of `rand.Int()` that are all `0`, but for the draw `i`, which is `1`. -/
def oneAt (i : Nat) : Nat → Int := fun k => if k = i then 1 else 0

/-- A point with two field keys and one value, of an unsupported kind. -/
def shortStringPoint (t : Time) : Point :=
  { MeasurementName := "cpu", FieldKeys := ["hostname", "load1"],
    FieldValues := [.other "string"], Timestamp := t }

/-- A point with one field key and two values. -/
def longPoint (t : Time) : Point :=
  { MeasurementName := "cpu", FieldKeys := ["usage_user"],
    FieldValues := [.int 42, .other "string"], Timestamp := t }

/-- Collaborators whose hosts report `shortStringPoint`. -/
def shortStringCollaborators : Collaborators Point := pointCollaborators shortStringPoint

/-- A pool of one host whose point has two field keys and one value, a string. -/
def shortStringPool : HostsSimulator Point :=
  { hosts := [(0, [sampleHost "host_0" [shortStringPoint ⟨0⟩]])], scrapeIntervalSeconds := 1 }

/-- A pool of three hosts in one bucket; the second host reports a string field. -/
def mixedPool : HostsSimulator Point :=
  { hosts := [(0, [sampleHost "host_0" [cpuPoint ⟨0⟩], sampleHost "host_1" [stringPoint ⟨0⟩],
      sampleHost "host_2" [cpuPoint ⟨0⟩]])],
    scrapeIntervalSeconds := 1 }

/-- Collaborators whose hosts report `cpuPoint` and whose tick leaves a measurement as it
is. -/
def frozenCollaborators : Collaborators Point :=
  { sampleCollaborators with Tick := fun m _ => m }

/-! ## The map of buckets: lemmas -/

theorem HostMap.get?_set {α : Type} (m : HostMap α) (k k1 : Int) (v : List α) :
    (m.set k v).get? k1 = if k = k1 then some v else m.get? k1 := by
  induction m with
  | nil => simp [HostMap.set, HostMap.get?]
  | cons b rest ih =>
    obtain ⟨k0, v0⟩ := b
    by_cases h0 : k0 = k
    · subst h0
      by_cases h1 : k0 = k1 <;> simp [HostMap.set, HostMap.get?, h1]
    · by_cases h1 : k0 = k1
      · subst h1
        have h2 : ¬ k = k0 := fun e => h0 e.symm
        simp [HostMap.set, HostMap.get?, h0, h2]
      · simp [HostMap.set, HostMap.get?, h0, h1, ih]

theorem HostMap.get?_eq_none_iff {α : Type} (m : HostMap α) (k : Int) :
    m.get? k = none ↔ k ∉ m.keys := by
  induction m with
  | nil => simp [HostMap.get?, HostMap.keys]
  | cons b rest ih =>
    obtain ⟨k0, v0⟩ := b
    by_cases h0 : k0 = k
    · simp [HostMap.get?, HostMap.keys, h0]
    · have h1 : ¬ k = k0 := fun e => h0 e.symm
      simpa [HostMap.get?, HostMap.keys, h0, h1] using ih

theorem HostMap.keys_set_of_mem {α : Type} (m : HostMap α) (k : Int) (v : List α)
    (hk : k ∈ m.keys) : (m.set k v).keys = m.keys := by
  induction m with
  | nil => simp [HostMap.keys] at hk
  | cons b rest ih =>
    obtain ⟨k0, v0⟩ := b
    by_cases h0 : k0 = k
    · simp [HostMap.set, HostMap.keys, h0]
    · have h1 : ¬ k = k0 := fun e => h0 e.symm
      have hk1 : k ∈ HostMap.keys rest := by simpa [HostMap.keys, h1] using hk
      have := ih hk1
      simp only [HostMap.keys] at this
      simp [HostMap.set, HostMap.keys, h0, this]

theorem HostMap.set_of_not_mem {α : Type} (m : HostMap α) (k : Int) (v : List α)
    (hk : k ∉ m.keys) : m.set k v = m ++ [(k, v)] := by
  induction m with
  | nil => simp [HostMap.set]
  | cons b rest ih =>
    obtain ⟨k0, v0⟩ := b
    have h0 : ¬ k0 = k := by
      intro e; apply hk; simp [HostMap.keys, e]
    have hk1 : k ∉ HostMap.keys rest := by
      intro e; apply hk; simp only [HostMap.keys] at e; simp [HostMap.keys, e]
    simp [HostMap.set, h0, ih hk1]

theorem tabulateOn_keys {α : Type} (ks : List Nat) (f : Nat → List α) :
    (tabulateOn ks f).keys = ks.map (fun (k : Nat) => (k : Int)) := by
  simp [tabulateOn, HostMap.keys, Function.comp_def]

theorem tabulateOn_get? {α : Type} (ks : List Nat) (f : Nat → List α) (k : Int) :
    (tabulateOn ks f).get? k = if 0 ≤ k ∧ k.toNat ∈ ks then some (f k.toNat) else none := by
  induction ks with
  | nil => simp [tabulateOn, HostMap.get?]
  | cons a rest ih =>
    simp only [tabulateOn, List.map_cons, HostMap.get?, List.mem_cons] at ih ⊢
    by_cases h0 : (a : Int) = k
    · subst h0
      simp
    · rw [if_neg h0, ih]
      have h1 : ¬ (0 ≤ k ∧ k.toNat = a) := by omega
      by_cases h2 : 0 ≤ k ∧ k.toNat ∈ rest
      · have h3 : 0 ≤ k ∧ (k.toNat = a ∨ k.toNat ∈ rest) := ⟨h2.1, Or.inr h2.2⟩
        rw [if_pos h2, if_pos h3]
      · have h3 : ¬ (0 ≤ k ∧ (k.toNat = a ∨ k.toNat ∈ rest)) := by
          rintro ⟨h4, h5 | h5⟩
          · exact h1 ⟨h4, h5⟩
          · exact h2 ⟨h4, h5⟩
        rw [if_neg h2, if_neg h3]

theorem tabulateOn_set {α : Type} (ks : List Nat) (f : Nat → List α) (k : Nat) (v : List α)
    (hnd : ks.Nodup) (hk : k ∈ ks) :
    (tabulateOn ks f).set (k : Int) v = tabulateOn ks (Function.update f k v) := by
  induction ks with
  | nil => simp at hk
  | cons a rest ih =>
    have hnd1 := List.nodup_cons.mp hnd
    simp only [tabulateOn, List.map_cons, HostMap.set] at ih ⊢
    by_cases h0 : a = k
    · subst h0
      simp only [if_true, Function.update_same]
      congr 1
      apply List.map_congr_left
      intro b hb
      have : b ≠ a := fun e => hnd1.1 (e ▸ hb)
      simp [Function.update, this]
    · have h1 : ¬ (a : Int) = (k : Int) := by omega
      have hk1 : k ∈ rest := by
        rcases List.mem_cons.mp hk with e | e
        · exact absurd e.symm h0
        · exact e
      rw [if_neg h1, ih hnd1.2 hk1]
      simp [Function.update, h0]

theorem tabulate_succ {α : Type} (n : Nat) (f : Nat → List α) :
    tabulate (n + 1) f = tabulate n f ++ [((n : Int), f n)] := by
  simp [tabulate, tabulateOn, List.range_succ]

theorem tabulate_keys {α : Type} (n : Nat) (f : Nat → List α) :
    (tabulate n f).keys = (List.range n).map (fun (k : Nat) => (k : Int)) :=
  tabulateOn_keys _ f

theorem tabulate_get? {α : Type} (n : Nat) (f : Nat → List α) (k : Int) :
    (tabulate n f).get? k = if 0 ≤ k ∧ k < n then some (f k.toNat) else none := by
  rw [tabulate, tabulateOn_get?]
  by_cases h : 0 ≤ k ∧ k < n
  · have h1 : 0 ≤ k ∧ k.toNat ∈ List.range n := ⟨h.1, List.mem_range.mpr (by omega)⟩
    rw [if_pos h, if_pos h1]
  · have h1 : ¬ (0 ≤ k ∧ k.toNat ∈ List.range n) := by
      rintro ⟨h2, h3⟩
      have := List.mem_range.mp h3
      exact h ⟨h2, by omega⟩
    rw [if_neg h, if_neg h1]

theorem tabulate_set {α : Type} (n : Nat) (f : Nat → List α) (k : Nat) (hk : k < n) (v : List α) :
    (tabulate n f).set (k : Int) v = tabulate n (Function.update f k v) :=
  tabulateOn_set _ f k v (List.nodup_range n) (List.mem_range.mpr hk)

theorem tabulate_congr {α : Type} (n : Nat) (f g : Nat → List α) (h : ∀ k, k < n → f k = g k) :
    tabulate n f = tabulate n g := by
  simp only [tabulate, tabulateOn]
  apply List.map_congr_left
  intro k hk
  rw [h k (List.mem_range.mp hk)]

/-! ## NewHostsSimulator: closed form -/

theorem allocBuckets_eq {α : Type} (hostCount s : Int)
    (hcap : 0 ≤ wrapInt64 (hostCount.tdiv s + 1)) :
    allocBuckets hostCount s = .ok (tabulate s.toNat (fun _ => ([] : List α))) := by
  unfold allocBuckets
  have hc : ¬ (wrapInt64 (hostCount.tdiv s + 1) < 0) := not_lt.mpr hcap
  simp only [hc, if_false]
  generalize s.toNat = n
  induction n with
  | zero => rfl
  | succ n ih =>
    rw [List.range_succ, List.foldlM_append, ih]
    have hk : (n : Int) ∉ (tabulate n (fun _ => ([] : List α))).keys := by
      rw [tabulate_keys]
      simp
    show Except.ok (HostMap.set _ _ _) = _
    rw [HostMap.set_of_not_mem _ _ _ hk, tabulate_succ]

theorem bucketIndices_succ (j n k : Nat) :
    bucketIndices (j + 1) n k = bucketIndices j n k ++ (if j % n = k then [j] else []) := by
  simp only [bucketIndices, List.range_succ, List.filter_append]
  by_cases h : j % n = k <;> simp [h]

theorem placeHosts_eq {α : Type} (mk : Nat → Int → α) (hostCount : Int) (n : Nat) (hn : 0 < n) :
    placeHosts mk hostCount (n : Int) (tabulate n (fun _ => [])) =
      .ok (tabulate n (fun k =>
        (bucketIndices hostCount.toNat n k).map (fun i => mk i ((i : Int).tmod (n : Int))))) := by
  unfold placeHosts
  have hs : ¬ ((n : Int) = 0) := by omega
  simp only [hs, if_false]
  generalize hostCount.toNat = j
  induction j with
  | zero => 
    show Except.ok _ = _
    simp [bucketIndices]
  | succ j ih =>
    rw [List.range_succ, List.foldlM_append, ih]
    show Except.ok (HostMap.set _ _ _) = _
    have hmod : (j : Int).tmod (n : Int) = ((j % n : Nat) : Int) := (Int.ofNat_tmod j n).symm
    have hlt : j % n < n := Nat.mod_lt _ hn
    have hget : (tabulate n (fun k =>
        (bucketIndices j n k).map (fun i => mk i ((i : Int).tmod (n : Int))))).get? ((j % n : Nat) : Int)
        = some ((bucketIndices j n (j % n)).map (fun i => mk i ((i : Int).tmod (n : Int)))) := by
      rw [tabulate_get?]
      have : 0 ≤ ((j % n : Nat) : Int) ∧ ((j % n : Nat) : Int) < n := by omega
      rw [if_pos this, Int.toNat_ofNat]
    rw [hmod, hget, tabulate_set _ _ _ hlt]
    congr 1
    apply tabulate_congr
    intro k _
    rw [bucketIndices_succ]
    by_cases h : j % n = k
    · subst h
      simp [hmod]
    · have h1 : k ≠ j % n := fun e => h e.symm
      simp [Function.update, h, h1]

theorem buildHosts_eq {α : Type} (mk : Nat → Int → α) (hostCount s : Int) (hs : 0 < s)
    (hcap : 0 ≤ wrapInt64 (hostCount.tdiv s + 1)) :
    buildHosts mk hostCount s =
      .ok (tabulate s.toNat (fun k =>
        (bucketIndices hostCount.toNat s.toNat k).map (fun i => mk i ((i : Int).tmod s)))) := by
  unfold buildHosts
  rw [allocBuckets_eq _ _ hcap]
  show placeHosts mk hostCount s _ = _
  have h1 : ((s.toNat : Nat) : Int) = s := Int.toNat_of_nonneg hs.le
  have h2 : 0 < s.toNat := by omega
  have := placeHosts_eq mk hostCount s.toNat h2
  rw [h1] at this
  exact this

theorem bucketIndices_length (hostCount n k : Nat) (hn : 0 < n) (hk : k < n) :
    (bucketIndices hostCount n k).length = hostCount / n + if k < hostCount % n then 1 else 0 := by
  have h : hostCount.count (fun i => i ≡ k [MOD n]) = hostCount / n + if k % n < hostCount % n then 1 else 0 :=
    Nat.count_modEq_card _ hn k
  rw [Nat.mod_eq_of_lt hk] at h
  rw [← h, Nat.count, List.countP_eq_length_filter, bucketIndices]
  congr 1
  apply List.filter_congr
  intro i _
  simp [Nat.ModEq, Nat.mod_eq_of_lt hk]

theorem bucketIndices_count (hostCount n k j : Nat) :
    (bucketIndices hostCount n k).count j = if j < hostCount ∧ j % n = k then 1 else 0 := by
  induction hostCount with
  | zero => simp [bucketIndices]
  | succ h ih =>
    rw [bucketIndices_succ, List.count_append, ih]
    by_cases h1 : h % n = k
    · by_cases h2 : j = h
      · subst h2
        simp [h1]
      · have h3 : ¬ h = j := fun e => h2 e.symm
        have h4 : (j < h + 1 ∧ j % n = k) ↔ (j < h ∧ j % n = k) := by omega
        simp [h1, h3, h4, List.count_cons, List.count_nil]
    · by_cases h2 : j = h
      · subst h2
        simp [h1]
      · have h4 : (j < h + 1 ∧ j % n = k) ↔ (j < h ∧ j % n = k) := by omega
        simp [h1, h4]

theorem tabulate_sum_length (hostCount n : Nat) (hn : 0 < n) :
    ((List.range n).map (fun k => (bucketIndices hostCount n k).length)).sum = hostCount := by
  induction hostCount with
  | zero => simp [bucketIndices]
  | succ h ih =>
    have hstep : ∀ k, (bucketIndices (h + 1) n k).length =
        (bucketIndices h n k).length + (if h % n = k then 1 else 0) := by
      intro k
      rw [bucketIndices_succ]
      by_cases h1 : h % n = k <;> simp [h1]
    simp only [hstep]
    rw [List.sum_map_add, ih]
    congr 1
    have hlt : h % n < n := Nat.mod_lt _ hn
    have hcount : ∀ (m : Nat) (a : Nat), ((List.range m).map (fun k => if a = k then 1 else 0)).sum
        = if a < m then 1 else 0 := by
      intro m a
      induction m with
      | zero => simp
      | succ m ihm =>
        rw [List.range_succ, List.map_append, List.sum_append, ihm]
        by_cases h1 : a < m
        · have : a ≠ m := by omega
          have h2 : a < m + 1 := by omega
          simp [h1, h2, this]
        · by_cases h3 : a = m
          · subst h3
            simp
          · have h2 : ¬ a < m + 1 := by omega
            simp [h1, h2, h3]
    rw [hcount, if_pos hlt]

/-! ## The pool that NewHostsSimulator builds -/

theorem newHostsSimulator_eq {M : Type} (c : Collaborators M) (rnd : Nat → Int) (start : Time)
    (hostCount s : Int) (hs : 0 < s) (hcap : 0 ≤ wrapInt64 (hostCount.tdiv s + 1)) :
    NewHostsSimulator c rnd hostCount s start =
      .ok { hosts := tabulate s.toNat (fun k =>
              (bucketIndices hostCount.toNat s.toNat k).map
                (fun i => hostAt c rnd start i ((i : Int).tmod s))),
            scrapeIntervalSeconds := s } := by
  unfold NewHostsSimulator
  rw [buildHosts_eq _ _ _ hs hcap]
  rfl

theorem indexBuckets_eq (hostCount s : Int) (hs : 0 < s)
    (hcap : 0 ≤ wrapInt64 (hostCount.tdiv s + 1)) :
    indexBuckets hostCount s =
      .ok (tabulate s.toNat (fun k => bucketIndices hostCount.toNat s.toNat k)) := by
  unfold indexBuckets
  rw [buildHosts_eq _ _ _ hs hcap]
  simp

theorem wrapInt64_of_range (x : Int) (h0 : -9223372036854775808 ≤ x)
    (h1 : x ≤ 9223372036854775807) : wrapInt64 x = x := by
  unfold wrapInt64
  have h : (x + 2 ^ 63) % 2 ^ 64 = x + 2 ^ 63 :=
    Int.emod_eq_of_lt (by norm_num; omega) (by norm_num; omega)
  rw [h]
  ring

theorem cap_nonneg (hostCount s : Int) (hc : 0 ≤ hostCount) (hs : 0 < s)
    (hmax : hostCount.tdiv s + 1 ≤ 9223372036854775807) :
    0 ≤ wrapInt64 (hostCount.tdiv s + 1) := by
  have := Int.tdiv_nonneg hc hs.le
  rw [wrapInt64_of_range _ (by omega) hmax]
  omega

/-- C1, as amended: for `hostCount >= 0` and `scrapeIntervalSeconds > 0` whose bucket capacity
`hostCount / scrapeIntervalSeconds + 1` does not exceed the largest `int`, 9223372036854775807,
the constructor returns a pool whose buckets are keyed `0 .. scrapeIntervalSeconds - 1`; the pool
holds the host of index `i` exactly where the index map holds `i`; every host index
`j < hostCount` occurs once in the bucket keyed `j mod scrapeIntervalSeconds` and in no other
bucket; and the bucket lengths add up to `hostCount`. -/
theorem newHostsSimulator_partition {M : Type} (c : Collaborators M) (rnd : Nat → Int)
    (start : Time) (hostCount scrapeIntervalSeconds : Int) (hc : 0 ≤ hostCount)
    (hs : 0 < scrapeIntervalSeconds)
    (hmax : hostCount.tdiv scrapeIntervalSeconds + 1 ≤ 9223372036854775807) :
    ∃ (h : HostsSimulator M) (idx : HostMap Nat),
      NewHostsSimulator c rnd hostCount scrapeIntervalSeconds start = .ok h ∧
      indexBuckets hostCount scrapeIntervalSeconds = .ok idx ∧
      h.hosts = idx.map (fun b =>
        (b.1, b.2.map (fun i => hostAt c rnd start i ((i : Int).tmod scrapeIntervalSeconds)))) ∧
      idx.keys = (List.range scrapeIntervalSeconds.toNat).map (fun (k : Nat) => (k : Int)) ∧
      (∀ j : Nat, (j : Int) < hostCount →
        (idx.get? ((j : Int).tmod scrapeIntervalSeconds)).map (List.count j) = some 1 ∧
        ∀ b ∈ idx, b.2.count j = if b.1 = (j : Int).tmod scrapeIntervalSeconds then 1 else 0) ∧
      (((h.hosts.map (fun b => b.2.length)).sum : Nat) : Int) = hostCount := by
  have hcap := cap_nonneg hostCount scrapeIntervalSeconds hc hs hmax
  have hn : 0 < scrapeIntervalSeconds.toNat := by omega
  have hsn : ((scrapeIntervalSeconds.toNat : Nat) : Int) = scrapeIntervalSeconds :=
    Int.toNat_of_nonneg hs.le
  refine ⟨_, _, newHostsSimulator_eq c rnd start _ _ hs hcap, indexBuckets_eq _ _ hs hcap,
    ?_, tabulate_keys _ _, ?_, ?_⟩
  · simp [tabulate, tabulateOn]
  · intro j hj
    have hjh : j < hostCount.toNat := by omega
    have hmod : (j : Int).tmod scrapeIntervalSeconds = ((j % scrapeIntervalSeconds.toNat : Nat) : Int) := by
      rw [Int.ofNat_tmod, hsn]
    have hlt : j % scrapeIntervalSeconds.toNat < scrapeIntervalSeconds.toNat := Nat.mod_lt _ hn
    constructor
    · rw [hmod, tabulate_get?]
      have h1 : 0 ≤ ((j % scrapeIntervalSeconds.toNat : Nat) : Int) ∧
          ((j % scrapeIntervalSeconds.toNat : Nat) : Int) < scrapeIntervalSeconds.toNat := by omega
      rw [if_pos h1, Int.toNat_ofNat, Option.map_some', bucketIndices_count]
      simp [hjh]
    · intro b hb
      simp only [tabulate, tabulateOn, List.mem_map, List.mem_range] at hb
      obtain ⟨k, _, rfl⟩ := hb
      simp only
      rw [bucketIndices_count, hmod]
      by_cases h2 : j % scrapeIntervalSeconds.toNat = k
      · have h3 : (k : Int) = ((j % scrapeIntervalSeconds.toNat : Nat) : Int) := by omega
        rw [if_pos ⟨hjh, h2⟩, if_pos h3]
      · have h3 : ¬ ((k : Int) = ((j % scrapeIntervalSeconds.toNat : Nat) : Int)) := by omega
        rw [if_neg (fun h => h2 h.2), if_neg h3]
  · simp only [tabulate, tabulateOn, List.map_map, Function.comp_def, List.length_map]
    rw [tabulate_sum_length _ _ hn]
    omega

theorem bucket_length_cast (hostCount s i : Int) (hc : 0 ≤ hostCount) (hs : 0 < s) (h0 : 0 ≤ i)
    (h1 : i < s) :
    ((bucketIndices hostCount.toNat s.toNat i.toNat).length : Int) =
      hostCount.tdiv s + (if i < hostCount.tmod s then 1 else 0) := by
  have hn : 0 < s.toNat := by omega
  have hk : i.toNat < s.toNat := by omega
  rw [bucketIndices_length _ _ _ hn hk]
  have hH : ((hostCount.toNat : Nat) : Int) = hostCount := Int.toNat_of_nonneg hc
  have hS : ((s.toNat : Nat) : Int) = s := Int.toNat_of_nonneg hs.le
  have hdiv : hostCount.tdiv s = ((hostCount.toNat / s.toNat : Nat) : Int) := by
    rw [Int.ofNat_tdiv, hH, hS]
  have hmod : hostCount.tmod s = ((hostCount.toNat % s.toNat : Nat) : Int) := by
    rw [Int.ofNat_tmod, hH, hS]
  rw [hdiv, hmod]
  by_cases h2 : i.toNat < hostCount.toNat % s.toNat
  · have h3 : i < ((hostCount.toNat % s.toNat : Nat) : Int) := by omega
    rw [if_pos h2, if_pos h3]
    push_cast
    rfl
  · have h3 : ¬ i < ((hostCount.toNat % s.toNat : Nat) : Int) := by omega
    rw [if_neg h2, if_neg h3]
    push_cast
    rfl

/-- C2, as amended: for `hostCount >= 0` and `scrapeIntervalSeconds > 0` whose bucket capacity
`hostCount / scrapeIntervalSeconds + 1` does not exceed the largest `int`, 9223372036854775807,
the bucket of every offset `i` in `[0, scrapeIntervalSeconds)` has
`hostCount / scrapeIntervalSeconds` hosts, and one more exactly when
`i < hostCount mod scrapeIntervalSeconds`; a bucket of a higher offset is never longer than one of
a lower offset, and two bucket lengths differ by at most one. -/
theorem newHostsSimulator_bucket_sizes {M : Type} (c : Collaborators M) (rnd : Nat → Int)
    (start : Time) (hostCount scrapeIntervalSeconds : Int) (hc : 0 ≤ hostCount)
    (hs : 0 < scrapeIntervalSeconds)
    (hmax : hostCount.tdiv scrapeIntervalSeconds + 1 ≤ 9223372036854775807) :
    ∃ h : HostsSimulator M,
      NewHostsSimulator c rnd hostCount scrapeIntervalSeconds start = .ok h ∧
      (∀ i : Int, 0 ≤ i → i < scrapeIntervalSeconds →
        ∃ hosts, h.hosts.get? i = some hosts ∧
          (hosts.length : Int) = hostCount.tdiv scrapeIntervalSeconds +
            (if i < hostCount.tmod scrapeIntervalSeconds then 1 else 0)) ∧
      (∀ (i1 i2 : Int) (b1 b2 : List (Host M)),
        h.hosts.get? i1 = some b1 → h.hosts.get? i2 = some b2 →
          (i1 ≤ i2 → b2.length ≤ b1.length) ∧ b1.length ≤ b2.length + 1) := by
  have hcap := cap_nonneg hostCount scrapeIntervalSeconds hc hs hmax
  have hS : ((scrapeIntervalSeconds.toNat : Nat) : Int) = scrapeIntervalSeconds :=
    Int.toNat_of_nonneg hs.le
  have hget : ∀ (i : Int) (b : List (Host M)),
      (tabulate scrapeIntervalSeconds.toNat (fun k =>
        (bucketIndices hostCount.toNat scrapeIntervalSeconds.toNat k).map
          (fun i => hostAt c rnd start i ((i : Int).tmod scrapeIntervalSeconds)))).get? i = some b →
      0 ≤ i ∧ i < scrapeIntervalSeconds ∧
        (b.length : Int) = hostCount.tdiv scrapeIntervalSeconds +
            (if i < hostCount.tmod scrapeIntervalSeconds then 1 else 0) := by
    intro i b hb
    rw [tabulate_get?, hS] at hb
    by_cases hi : 0 ≤ i ∧ i < scrapeIntervalSeconds
    · rw [if_pos hi] at hb
      have hb1 := Option.some.inj hb
      refine ⟨hi.1, hi.2, ?_⟩
      rw [← hb1, List.length_map]
      exact bucket_length_cast _ _ _ hc hs hi.1 hi.2
    · rw [if_neg hi] at hb
      cases hb
  refine ⟨_, newHostsSimulator_eq c rnd start _ _ hs hcap, ?_, ?_⟩
  · intro i h0 h1
    have hex : ∃ b, (tabulate scrapeIntervalSeconds.toNat (fun k =>
        (bucketIndices hostCount.toNat scrapeIntervalSeconds.toNat k).map
          (fun i => hostAt c rnd start i ((i : Int).tmod scrapeIntervalSeconds)))).get? i = some b := by
      rw [tabulate_get?, hS, if_pos ⟨h0, h1⟩]
      exact ⟨_, rfl⟩
    obtain ⟨b, hb⟩ := hex
    exact ⟨b, hb, (hget i b hb).2.2⟩
  · intro i1 i2 b1 b2 hb1 hb2
    have e1 := (hget i1 b1 hb1).2.2
    have e2 := (hget i2 b2 hb2).2.2
    constructor
    · intro hle
      by_cases c1 : i1 < hostCount.tmod scrapeIntervalSeconds
      · by_cases c2 : i2 < hostCount.tmod scrapeIntervalSeconds
        · rw [if_pos c1] at e1; rw [if_pos c2] at e2; omega
        · rw [if_pos c1] at e1; rw [if_neg c2] at e2; omega
      · have c2 : ¬ i2 < hostCount.tmod scrapeIntervalSeconds := by omega
        rw [if_neg c1] at e1; rw [if_neg c2] at e2; omega
    · by_cases c1 : i1 < hostCount.tmod scrapeIntervalSeconds
      · by_cases c2 : i2 < hostCount.tmod scrapeIntervalSeconds
        · rw [if_pos c1] at e1; rw [if_pos c2] at e2; omega
        · rw [if_pos c1] at e1; rw [if_neg c2] at e2; omega
      · by_cases c2 : i2 < hostCount.tmod scrapeIntervalSeconds
        · rw [if_neg c1] at e1; rw [if_pos c2] at e2; omega
        · rw [if_neg c1] at e1; rw [if_neg c2] at e2; omega

/-! ## Generate: what a call reads and returns -/

theorem readResult_nil {M : Type} (c : Collaborators M) :
    readResult c ([] : List (FieldRead M)) = .ok [] := rfl

theorem readResult_cons {M : Type} (c : Collaborators M) (x : FieldRead M) (xs : List (FieldRead M)) :
    readResult c (x :: xs) =
      match fieldValueToFloat x.fieldName x.value with
      | .error e => .error e
      | .ok val =>
        match readResult c xs with
        | .error e => .error e
        | .ok series => .ok (makeSeries c x.host x.point x.fieldName val :: series) := by
  obtain ⟨host, p, name, v⟩ := x
  unfold readResult
  rw [List.find?_cons, List.map_cons]
  generalize List.find? (fun (x : FieldRead M) => !x.value.supported) xs = r
  cases v <;> cases r <;> rfl

theorem readResult_append {M : Type} (c : Collaborators M) (xs ys : List (FieldRead M)) :
    readResult c (xs ++ ys) =
      match readResult c xs with
      | .error e => .error e
      | .ok a =>
        match readResult c ys with
        | .error e => .error e
        | .ok b => .ok (a ++ b) := by
  induction xs with
  | nil =>
    simp only [List.nil_append, readResult_nil]
    cases readResult c ys <;> rfl
  | cons x xs ih =>
    rw [List.cons_append, readResult_cons, readResult_cons, ih]
    cases fieldValueToFloat x.fieldName x.value with
    | error e => rfl
    | ok val =>
      cases readResult c xs with
      | error e => rfl
      | ok a =>
        cases readResult c ys with
        | error e => rfl
        | ok b => rfl

theorem pointSeries_eq {M : Type} (c : Collaborators M) (host : Host M) (p : Point)
    (keys : List String) (i : Nat) (hwf : keys.length + i ≤ p.FieldValues.length) :
    pointSeries c host p i keys =
      readResult c ((keys.zip (p.FieldValues.drop i)).map (fun f =>
        { host := host, point := p, fieldName := f.1, value := f.2 })) := by
  induction keys generalizing i with
  | nil => rfl
  | cons k rest ih =>
    have hi : i < p.FieldValues.length := by simp at hwf; omega
    have hrest : rest.length + (i + 1) ≤ p.FieldValues.length := by simp at hwf; omega
    rw [List.drop_eq_getElem_cons hi, List.zip_cons_cons, List.map_cons, readResult_cons,
      ← ih (i + 1) hrest]
    simp only [pointSeries, List.getElem?_eq_getElem hi]

theorem pointSeries_wellFormed {M : Type} (c : Collaborators M) (host : Host M) (p : Point)
    (keys : List String) (i : Nat) (series : List TimeSeries)
    (h : pointSeries c host p i keys = .ok series) :
    keys = [] ∨ keys.length + i ≤ p.FieldValues.length := by
  induction keys generalizing i series with
  | nil => exact Or.inl rfl
  | cons k rest ih =>
    right
    simp only [pointSeries] at h
    by_cases hi : i < p.FieldValues.length
    · rw [List.getElem?_eq_getElem hi] at h
      simp only at h
      cases hv : fieldValueToFloat k p.FieldValues[i] with
      | error e => rw [hv] at h; cases h
      | ok val =>
        rw [hv] at h
        simp only at h
        cases hr : pointSeries c host p (i + 1) rest with
        | error e => rw [hr] at h; cases h
        | ok more =>
          rcases ih (i + 1) more hr with e | e
          · subst e
            simp only [List.length_cons, List.length_nil]
            omega
          · simp only [List.length_cons]
            omega
    · rw [List.getElem?_eq_none (by omega)] at h
      cases h

theorem hostSeries_eq {M : Type} (c : Collaborators M) (host : Host M) (ms : List M)
    (hwf : ∀ m ∈ ms, (currentPoint c m).wellFormed) :
    hostSeries c host ms = readResult c (hostFields c host ms) := by
  induction ms with
  | nil => rfl
  | cons m rest ih =>
    have h1 : (currentPoint c m).wellFormed := hwf m (List.mem_cons_self _ _)
    have h2 := ih (fun m1 hm1 => hwf m1 (List.mem_cons_of_mem _ hm1))
    simp only [hostSeries, hostFields, List.flatMap_cons] at h2 ⊢
    rw [readResult_append, ← h2, pointSeries_eq c host _ _ 0 (by simpa [Point.wellFormed] using h1)]
    simp only [List.drop_zero, Point.fields]

theorem hostSeries_wellFormed {M : Type} (c : Collaborators M) (host : Host M) (ms : List M)
    (series : List TimeSeries) (h : hostSeries c host ms = .ok series) :
    ∀ m ∈ ms, (currentPoint c m).wellFormed := by
  induction ms generalizing series with
  | nil => simp
  | cons m rest ih =>
    simp only [hostSeries] at h
    cases hp : pointSeries c host (currentPoint c m) 0 (currentPoint c m).FieldKeys with
    | error e => rw [hp] at h; cases h
    | ok a =>
      rw [hp] at h
      simp only at h
      cases hr : hostSeries c host rest with
      | error e => rw [hr] at h; cases h
      | ok b =>
        intro m1 hm1
        rcases List.mem_cons.mp hm1 with e | e
        · subst e
          rcases pointSeries_wellFormed c host _ _ 0 a hp with e | e
          · simp [Point.wellFormed, e]
          · simpa [Point.wellFormed] using e
        · exact ih b hr m1 e

theorem generateHosts_eq {M : Type} (c : Collaborators M) (d : Duration) (hosts : List (Host M))
    (hwf : ∀ host ∈ hosts, ∀ m ∈ host.SimulatedMeasurements, (currentPoint c m).wellFormed) :
    (generateHosts c d hosts).1 = readResult c (bucketFields c hosts) := by
  induction hosts with
  | nil => rfl
  | cons host rest ih =>
    have h1 := hostSeries_eq c host host.SimulatedMeasurements (hwf host (List.mem_cons_self _ _))
    have h2 := ih (fun h1 hh1 => hwf h1 (List.mem_cons_of_mem _ hh1))
    simp only [generateHosts, bucketFields, List.flatMap_cons] at h2 ⊢
    rw [readResult_append, ← h1, ← h2]
    cases hostSeries c host host.SimulatedMeasurements with
    | error e => rfl
    | ok a =>
      simp only
      rcases generateHosts c d rest with ⟨r, rest1⟩
      cases r <;> rfl

theorem generateHosts_wellFormed {M : Type} (c : Collaborators M) (d : Duration)
    (hosts : List (Host M)) (series : List TimeSeries)
    (h : (generateHosts c d hosts).1 = .ok series) :
    ∀ host ∈ hosts, ∀ m ∈ host.SimulatedMeasurements, (currentPoint c m).wellFormed := by
  induction hosts generalizing series with
  | nil => simp
  | cons host rest ih =>
    simp only [generateHosts] at h
    cases hp : hostSeries c host host.SimulatedMeasurements with
    | error e => rw [hp] at h; cases h
    | ok a =>
      rw [hp] at h
      simp only at h
      rcases hr : generateHosts c d rest with ⟨r, rest1⟩
      rw [hr] at h
      cases r with
      | error e => cases h
      | ok b =>
        intro h1 hh1
        rcases List.mem_cons.mp hh1 with e | e
        · subst e
          exact hostSeries_wellFormed c _ _ a hp
        · exact ih b (by rw [hr]) h1 e

theorem generateHosts_length {M : Type} (c : Collaborators M) (d : Duration)
    (hosts : List (Host M)) : (generateHosts c d hosts).2.length = hosts.length := by
  induction hosts with
  | nil => rfl
  | cons host rest ih =>
    simp only [generateHosts]
    cases hostSeries c host host.SimulatedMeasurements with
    | error e => rfl
    | ok a =>
      simp only
      rcases hr : generateHosts c d rest with ⟨r, rest1⟩
      rw [hr] at ih
      cases r <;> simp only [List.length_cons] <;> simp at ih <;> omega

theorem generate_of_none {M : Type} (c : Collaborators M) (h : HostsSimulator M) (offset : Int)
    (hg : h.hosts.get? offset = none) : Generate c h offset = (.ok none, h) := by
  simp only [Generate, hg]

theorem generate_of_some {M : Type} (c : Collaborators M) (h : HostsSimulator M) (offset : Int)
    (hosts : List (Host M)) (hg : h.hosts.get? offset = some hosts) :
    Generate c h offset =
      ((generateHosts c (secondsDuration h.scrapeIntervalSeconds) hosts).1.map some,
        { hosts := h.hosts.set offset
            (generateHosts c (secondsDuration h.scrapeIntervalSeconds) hosts).2,
          scrapeIntervalSeconds := h.scrapeIntervalSeconds }) := by
  simp only [Generate, hg]

/-! ## The pools of a run -/

theorem allocBuckets_fault {α : Type} (hostCount s : Int) (hs : 0 < s)
    (hcap : wrapInt64 (hostCount.tdiv s + 1) < 0) :
    allocBuckets hostCount s = (.error .makesliceCap : Except Fault (HostMap α)) := by
  unfold allocBuckets
  obtain ⟨n, hn⟩ : ∃ n, s.toNat = n + 1 := ⟨s.toNat - 1, by omega⟩
  rw [hn, List.range_succ_eq_map, List.foldlM_cons]
  simp only [hcap, if_true]
  rfl

theorem newHostsSimulator_cap {M : Type} (c : Collaborators M) (rnd : Nat → Int) (start : Time)
    (hostCount s : Int) (hs : 0 < s) (h : HostsSimulator M)
    (hnew : NewHostsSimulator c rnd hostCount s start = .ok h) :
    0 ≤ wrapInt64 (hostCount.tdiv s + 1) := by
  by_contra hcap
  have hf : wrapInt64 (hostCount.tdiv s + 1) < 0 := by omega
  unfold NewHostsSimulator buildHosts at hnew
  rw [allocBuckets_fault _ _ hs hf] at hnew
  cases hnew

theorem newHostsSimulator_makeslice {M : Type} (c : Collaborators M) (rnd : Nat → Int)
    (start : Time) (hostCount s : Int) (hs : 0 < s)
    (hcap : wrapInt64 (hostCount.tdiv s + 1) < 0) :
    NewHostsSimulator c rnd hostCount s start = .error .makesliceCap := by
  unfold NewHostsSimulator buildHosts
  rw [allocBuckets_fault _ _ hs hcap]
  rfl

theorem built_inv {M : Type} (c : Collaborators M) (hostCount s : Int) (h : HostsSimulator M)
    (hb : Built c hostCount s h) (hs : 0 < s) :
    h.scrapeIntervalSeconds = s ∧
      ∀ k : Int, (h.hosts.get? k).map List.length =
        if 0 ≤ k ∧ k < s then some (bucketIndices hostCount.toNat s.toNat k.toNat).length
        else none := by
  induction hb with
  | new rnd start h hnew =>
    have hcap := newHostsSimulator_cap c rnd start _ _ hs h hnew
    rw [newHostsSimulator_eq c rnd start _ _ hs hcap] at hnew
    have hh := Except.ok.inj hnew
    subst hh
    refine ⟨rfl, ?_⟩
    intro k
    have hS : ((s.toNat : Nat) : Int) = s := Int.toNat_of_nonneg hs.le
    simp only
    rw [tabulate_get?, hS]
    by_cases hk : 0 ≤ k ∧ k < s
    · rw [if_pos hk, if_pos hk, Option.map_some', List.length_map]
    · rw [if_neg hk, if_neg hk, Option.map_none']
  | generate h offset _ ih =>
    cases hg : h.hosts.get? offset with
    | none =>
      rw [generate_of_none c h offset hg]
      exact ih
    | some hosts =>
      rw [generate_of_some c h offset hosts hg]
      refine ⟨ih.1, ?_⟩
      intro k
      simp only
      rw [HostMap.get?_set]
      by_cases hk : offset = k
      · subst hk
        rw [if_pos rfl, Option.map_some', generateHosts_length, ← ih.2 offset, hg,
          Option.map_some']
      · rw [if_neg hk]
        exact ih.2 k

theorem built_get?_none {M : Type} (c : Collaborators M) (hostCount s : Int)
    (h : HostsSimulator M) (hb : Built c hostCount s h) (hs : 0 < s) (offset : Int)
    (ho : offset < 0 ∨ s ≤ offset) : h.hosts.get? offset = none := by
  have h1 := (built_inv c hostCount s h hb hs).2 offset
  have h2 : ¬ (0 ≤ offset ∧ offset < s) := by omega
  rw [if_neg h2] at h1
  cases hg : h.hosts.get? offset with
  | none => rfl
  | some hosts => rw [hg] at h1; cases h1

theorem built_get?_some {M : Type} (c : Collaborators M) (hostCount s : Int)
    (h : HostsSimulator M) (hb : Built c hostCount s h) (hs : 0 < s) (offset : Int)
    (h0 : 0 ≤ offset) (h1 : offset < s) :
    ∃ hosts, h.hosts.get? offset = some hosts ∧
      hosts.length = (bucketIndices hostCount.toNat s.toNat offset.toNat).length := by
  have h2 := (built_inv c hostCount s h hb hs).2 offset
  rw [if_pos ⟨h0, h1⟩] at h2
  cases hg : h.hosts.get? offset with
  | none => rw [hg] at h2; cases h2
  | some hosts =>
    rw [hg] at h2
    exact ⟨hosts, rfl, Option.some.inj h2⟩

theorem bucketIndices_of_le (hostCount n k : Nat) (hk : hostCount ≤ k) :
    bucketIndices hostCount n k = [] := by
  simp only [bucketIndices, List.filter_eq_nil_iff, List.mem_range, decide_eq_true_eq]
  intro i hi he
  have := Nat.mod_le i n
  omega

/-- C3: on every pool of a run with `scrapeIntervalSeconds > 0`, `Generate` with an offset
that is negative or not below `scrapeIntervalSeconds` returns the nil slice without a panic,
and leaves the pool as it was. -/
theorem generate_out_of_range {M : Type} (c : Collaborators M)
    (hostCount scrapeIntervalSeconds : Int) (h : HostsSimulator M) (offsetSeconds : Int)
    (hb : Built c hostCount scrapeIntervalSeconds h) (hs : 0 < scrapeIntervalSeconds)
    (ho : offsetSeconds < 0 ∨ scrapeIntervalSeconds ≤ offsetSeconds) :
    Generate c h offsetSeconds = (.ok none, h) :=
  generate_of_none c h offsetSeconds
    (built_get?_none c hostCount scrapeIntervalSeconds h hb hs offsetSeconds ho)

/-! ## Generate: the result of a call -/

theorem mem_hostFields {M : Type} (c : Collaborators M) (host : Host M) (ms : List M)
    (x : FieldRead M) :
    x ∈ hostFields c host ms ↔
      ∃ m ∈ ms, ∃ f ∈ (currentPoint c m).fields,
        x = { host := host, point := currentPoint c m, fieldName := f.1, value := f.2 } := by
  simp only [hostFields, List.mem_flatMap, List.mem_map]
  constructor
  · rintro ⟨m, hm, f, hf, rfl⟩
    exact ⟨m, hm, f, hf, rfl⟩
  · rintro ⟨m, hm, f, hf, rfl⟩
    exact ⟨m, hm, f, hf, rfl⟩

theorem mem_bucketFields {M : Type} (c : Collaborators M) (hosts : List (Host M))
    (x : FieldRead M) :
    x ∈ bucketFields c hosts ↔
      ∃ host ∈ hosts, ∃ m ∈ host.SimulatedMeasurements, ∃ f ∈ (currentPoint c m).fields,
        x = { host := host, point := currentPoint c m, fieldName := f.1, value := f.2 } := by
  simp only [bucketFields, List.mem_flatMap, mem_hostFields]

theorem readResult_of_supported {M : Type} (c : Collaborators M) (xs : List (FieldRead M))
    (h : ∀ x ∈ xs, x.value.supported = true) :
    readResult c xs = .ok (xs.map (FieldRead.series c)) := by
  have hf : xs.find? (fun x => !x.value.supported) = none := by
    rw [List.find?_eq_none]
    intro x hx
    simp [h x hx]
  simp only [readResult, hf]
  rfl

theorem readResult_of_find {M : Type} (c : Collaborators M) (xs : List (FieldRead M))
    (x : FieldRead M) (h : xs.find? (fun x => !x.value.supported) = some x) :
    ∃ typeName, x.value = .other typeName ∧
      readResult c xs = .error (.panic (panicMessage x.fieldName typeName)) := by
  have hx := List.find?_some h
  simp only [readResult, h]
  obtain ⟨host, p, name, v⟩ := x
  cases v with
  | other t => exact ⟨t, rfl, rfl⟩
  | int v => simp [FieldValue.supported] at hx
  | int64 v => simp [FieldValue.supported] at hx
  | float64 v => simp [FieldValue.supported] at hx

theorem readResult_ok {M : Type} (c : Collaborators M) (xs : List (FieldRead M))
    (series : List TimeSeries) (h : readResult c xs = .ok series) :
    (∀ x ∈ xs, x.value.supported = true) ∧ series = xs.map (FieldRead.series c) := by
  cases hf : xs.find? (fun x => !x.value.supported) with
  | some x =>
    simp only [readResult, hf] at h
    cases h
  | none =>
    have hall : ∀ x ∈ xs, x.value.supported = true := by
      intro x hx
      have := List.find?_eq_none.mp hf x hx
      simpa using this
    rw [readResult_of_supported c xs hall] at h
    exact ⟨hall, (Except.ok.inj h).symm⟩

theorem point_supported_iff (p : Point) :
    p.supported = true ↔ p.wellFormed ∧ ∀ f ∈ p.fields, f.2.supported = true := by
  simp [Point.supported, Point.wellFormed]

theorem bucket_supported {M : Type} (c : Collaborators M) (hosts : List (Host M))
    (hsup : ∀ host ∈ hosts, ∀ m ∈ host.SimulatedMeasurements, (currentPoint c m).supported = true) :
    (∀ host ∈ hosts, ∀ m ∈ host.SimulatedMeasurements, (currentPoint c m).wellFormed) ∧
      ∀ x ∈ bucketFields c hosts, x.value.supported = true := by
  constructor
  · intro host hh m hm
    exact ((point_supported_iff _).mp (hsup host hh m hm)).1
  · intro x hx
    obtain ⟨host, hh, m, hm, f, hf, rfl⟩ := (mem_bucketFields c hosts x).mp hx
    exact ((point_supported_iff _).mp (hsup host hh m hm)).2 f hf

theorem generate_supported {M : Type} (c : Collaborators M) (h : HostsSimulator M)
    (offset : Int) (hosts : List (Host M)) (hg : h.hosts.get? offset = some hosts)
    (hsup : ∀ host ∈ hosts, ∀ m ∈ host.SimulatedMeasurements, (currentPoint c m).supported = true) :
    (Generate c h offset).1 = .ok (some ((bucketFields c hosts).map (FieldRead.series c))) := by
  have hb := bucket_supported c hosts hsup
  rw [generate_of_some c h offset hosts hg]
  simp only
  rw [generateHosts_eq c _ hosts hb.1, readResult_of_supported c _ hb.2]
  rfl

theorem generate_ok {M : Type} (c : Collaborators M) (h : HostsSimulator M)
    (offset : Int) (hosts : List (Host M)) (series : List TimeSeries)
    (hg : h.hosts.get? offset = some hosts)
    (hok : (Generate c h offset).1 = .ok (some series)) :
    series = (bucketFields c hosts).map (FieldRead.series c) ∧
      (∀ x ∈ bucketFields c hosts, x.value.supported = true) ∧
      ∀ host ∈ hosts, ∀ m ∈ host.SimulatedMeasurements, (currentPoint c m).wellFormed := by
  rw [generate_of_some c h offset hosts hg] at hok
  simp only at hok
  cases hr : (generateHosts c (secondsDuration h.scrapeIntervalSeconds) hosts).1 with
  | error e => rw [hr] at hok; cases hok
  | ok ss =>
    rw [hr] at hok
    have hss : ss = series := by
      have := Except.ok.inj hok
      exact Option.some.inj this
    subst hss
    have hwf := generateHosts_wellFormed c _ hosts ss hr
    rw [generateHosts_eq c _ hosts hwf] at hr
    have := readResult_ok c _ ss hr
    exact ⟨this.2, this.1, hwf⟩

theorem generate_ne_none {M : Type} (c : Collaborators M) (h : HostsSimulator M)
    (offset : Int) (hosts : List (Host M)) (hg : h.hosts.get? offset = some hosts) :
    (Generate c h offset).1 ≠ .ok none := by
  rw [generate_of_some c h offset hosts hg]
  simp only
  cases (generateHosts c (secondsDuration h.scrapeIntervalSeconds) hosts).1 with
  | error e => intro hc; cases hc
  | ok ss => intro hc; cases hc

theorem sum_map_const {α : Type} (l : List α) (g : α → Nat) (a : Nat) (h : ∀ x ∈ l, g x = a) :
    (l.map g).sum = l.length * a := by
  induction l with
  | nil => simp
  | cons x rest ih =>
    have h1 := h x (List.mem_cons_self _ _)
    have h2 := ih (fun y hy => h y (List.mem_cons_of_mem _ hy))
    simp only [List.map_cons, List.sum_cons, List.length_cons, h1, h2]
    ring

theorem hostFields_length {M : Type} (c : Collaborators M) (host : Host M) (ms : List M)
    (hwf : ∀ m ∈ ms, (currentPoint c m).wellFormed) :
    (hostFields c host ms).length = (ms.map (fun m => (currentPoint c m).FieldKeys.length)).sum := by
  induction ms with
  | nil => rfl
  | cons m rest ih =>
    have h1 : (currentPoint c m).wellFormed := hwf m (List.mem_cons_self _ _)
    have h2 := ih (fun y hy => hwf y (List.mem_cons_of_mem _ hy))
    simp only [hostFields, List.flatMap_cons, List.length_append, List.length_map, List.map_cons,
      List.sum_cons] at h2 ⊢
    rw [h2]
    simp only [Point.fields, List.length_zip]
    rw [Nat.min_eq_left h1]

theorem bucketFields_length {M : Type} (c : Collaborators M) (hosts : List (Host M))
    (hwf : ∀ host ∈ hosts, ∀ m ∈ host.SimulatedMeasurements, (currentPoint c m).wellFormed) :
    (bucketFields c hosts).length =
      (hosts.map (fun host =>
        (host.SimulatedMeasurements.map (fun m => (currentPoint c m).FieldKeys.length)).sum)).sum := by
  induction hosts with
  | nil => rfl
  | cons host rest ih =>
    have h1 := hostFields_length c host host.SimulatedMeasurements (hwf host (List.mem_cons_self _ _))
    have h2 := ih (fun y hy => hwf y (List.mem_cons_of_mem _ hy))
    simp only [bucketFields, List.flatMap_cons, List.length_append, List.map_cons,
      List.sum_cons] at h2 ⊢
    rw [h1, h2]

/-- C4, as amended: on every pool of a run with `scrapeIntervalSeconds > 0` and for every offset
in `[0, scrapeIntervalSeconds)` the bucket exists and `Generate` does not return the nil slice;
it returns a slice whenever every field key of the current points of the bucket has a value of
a supported kind. A bucket with `hostCount <= offset` is empty, and `Generate` returns for it the
empty slice, which differs from the result for any offset out of range. -/
theorem generate_in_range {M : Type} (c : Collaborators M)
    (hostCount scrapeIntervalSeconds : Int) (h : HostsSimulator M) (offsetSeconds : Int)
    (hb : Built c hostCount scrapeIntervalSeconds h) (hs : 0 < scrapeIntervalSeconds)
    (h0 : 0 ≤ offsetSeconds) (h1 : offsetSeconds < scrapeIntervalSeconds) :
    ∃ hosts, h.hosts.get? offsetSeconds = some hosts ∧
      (Generate c h offsetSeconds).1 ≠ .ok none ∧
      ((∀ host ∈ hosts, ∀ m ∈ host.SimulatedMeasurements, (currentPoint c m).supported = true) →
        ∃ series, (Generate c h offsetSeconds).1 = .ok (some series)) ∧
      (hostCount ≤ offsetSeconds →
        hosts = [] ∧ (Generate c h offsetSeconds).1 = .ok (some []) ∧
        ∀ o : Int, o < 0 ∨ scrapeIntervalSeconds ≤ o →
          (Generate c h o).1 ≠ (Generate c h offsetSeconds).1) := by
  obtain ⟨hosts, hg, hlen⟩ :=
    built_get?_some c hostCount scrapeIntervalSeconds h hb hs offsetSeconds h0 h1
  refine ⟨hosts, hg, generate_ne_none c h offsetSeconds hosts hg, ?_, ?_⟩
  · intro hsup
    exact ⟨_, generate_supported c h offsetSeconds hosts hg hsup⟩
  · intro hle
    have hnil : hosts = [] := by
      rw [bucketIndices_of_le _ _ _ (by omega)] at hlen
      exact List.length_eq_zero.mp hlen
    subst hnil
    have hgen : (Generate c h offsetSeconds).1 = .ok (some []) :=
      generate_supported c h offsetSeconds [] hg (by simp)
    refine ⟨rfl, hgen, ?_⟩
    intro o ho
    rw [hgen, generate_of_none c h o
      (built_get?_none c hostCount scrapeIntervalSeconds h hb hs o ho)]
    intro hc
    cases hc

/-- C5: when the bucket of the offset exists and every field key of the current points of its
hosts has a value of a supported kind, `Generate` returns a slice whose length is the sum, over
the hosts of the bucket and over the measurements of each host, of the number of field keys of
the current point; a bucket of `k` hosts with `m` measurements of `f` fields each gives
`k * m * f` series. -/
theorem generate_series_count {M : Type} (c : Collaborators M) (h : HostsSimulator M)
    (offsetSeconds : Int) (hosts : List (Host M))
    (hg : h.hosts.get? offsetSeconds = some hosts)
    (hsup : ∀ host ∈ hosts, ∀ m ∈ host.SimulatedMeasurements,
      (currentPoint c m).supported = true) :
    ∃ series, (Generate c h offsetSeconds).1 = .ok (some series) ∧
      series.length =
        (hosts.map (fun host =>
          (host.SimulatedMeasurements.map
            (fun m => (currentPoint c m).FieldKeys.length)).sum)).sum ∧
      ∀ k m f : Nat, hosts.length = k →
        (∀ host ∈ hosts, host.SimulatedMeasurements.length = m) →
        (∀ host ∈ hosts, ∀ ms ∈ host.SimulatedMeasurements,
          (currentPoint c ms).FieldKeys.length = f) →
        series.length = k * m * f := by
  have hb := bucket_supported c hosts hsup
  have hlen : ((bucketFields c hosts).map (FieldRead.series c)).length =
      (hosts.map (fun host =>
          (host.SimulatedMeasurements.map
            (fun m => (currentPoint c m).FieldKeys.length)).sum)).sum := by
    rw [List.length_map, bucketFields_length c hosts hb.1]
  refine ⟨_, generate_supported c h offsetSeconds hosts hg hsup, hlen, ?_⟩
  intro k m f hk hm hf
  rw [hlen, ← hk]
  have hhost : ∀ host ∈ hosts,
      (host.SimulatedMeasurements.map (fun m => (currentPoint c m).FieldKeys.length)).sum
        = m * f := by
    intro host hh
    rw [sum_map_const _ _ f (hf host hh), hm host hh]
  rw [sum_map_const _ _ (m * f) hhost]
  ring

theorem mem_zip_map_self {α β : Type} (f : α → β) (xs : List α) (b : β) (x : α)
    (h : (b, x) ∈ (xs.map f).zip xs) : b = f x := by
  induction xs with
  | nil => simp at h
  | cons a rest ih =>
    simp only [List.map_cons, List.zip_cons_cons, List.mem_cons, Prod.mk.injEq] at h
    rcases h with ⟨e1, e2⟩ | h
    · rw [e1, e2]
    · exact ih h

theorem excessBits_of_lt (fuel a : Nat) (h : a < 2 ^ 53) : excessBits fuel a = 0 := by
  cases fuel with
  | zero => rfl
  | succ n =>
    unfold excessBits
    rw [if_pos h]

theorem roundMagnitude_exact (a : Nat) (h : a ≤ 2 ^ 53) : roundMagnitude a = a := by
  rcases Nat.lt_or_eq_of_le h with h1 | h1
  · unfold roundMagnitude
    simp only [excessBits_of_lt 64 a h1, pow_zero, Nat.mod_one, Nat.div_one, Nat.mul_one,
      Nat.mul_zero, Nat.zero_lt_one, if_true]
  · subst h1
    decide

theorem float64OfInt_exact (v : Int) (h : |v| ≤ 2 ^ 53) : float64OfInt v = .finite (v : ℚ) := by
  have hn : v.natAbs ≤ 2 ^ 53 := by
    have h2 : ((v.natAbs : Nat) : Int) ≤ 2 ^ 53 := by
      rw [Int.natCast_natAbs]
      exact h
    exact_mod_cast h2
  unfold float64OfInt
  rw [roundMagnitude_exact _ hn]
  by_cases hv : v < 0
  · rw [if_pos hv]
    congr 1
    have h1 : ((v.natAbs : Nat) : Int) = -v := by omega
    have h3 : (((v.natAbs : Nat) : Int) : ℚ) = ((-v : Int) : ℚ) := congrArg _ h1
    rw [Int.cast_natCast] at h3
    rw [h3]
    push_cast
    ring
  · rw [if_neg hv]
    congr 1
    have h1 : ((v.natAbs : Nat) : Int) = v := by omega
    have h3 : (((v.natAbs : Nat) : Int) : ℚ) = ((v : Int) : ℚ) := congrArg _ h1
    rw [Int.cast_natCast] at h3
    exact h3

theorem generate_zip {M : Type} (c : Collaborators M) (h : HostsSimulator M)
    (offset : Int) (hosts : List (Host M)) (series : List TimeSeries)
    (hg : h.hosts.get? offset = some hosts)
    (hok : (Generate c h offset).1 = .ok (some series)) :
    series.length = (bucketFields c hosts).length ∧
      ∀ ts x, (ts, x) ∈ series.zip (bucketFields c hosts) →
        x.value.supported = true ∧ ts = makeSeries c x.host x.point x.fieldName x.value.toFloat64 := by
  obtain ⟨hs, hsup, _⟩ := generate_ok c h offset hosts series hg hok
  subst hs
  refine ⟨List.length_map _ _, ?_⟩
  intro ts x hmem
  exact ⟨hsup x (List.of_mem_zip hmem).2, mem_zip_map_self _ _ ts x hmem⟩

/-- C6: when `Generate` returns a slice, it has one series per field read, in order, and the
labels of the series of a field are twelve: ten named `MachineTagKeys[0..9]` with the name,
region, datacenter, rack, OS, architecture, team, service, service version and environment of
the host, then the label named "measurement" with the field name, then the label named by the
metric-name key with the measurement name of the point. The labels of two series from fields
of the same point of the same host differ at most in the value of the eleventh. -/
theorem generate_labels {M : Type} (c : Collaborators M) (h : HostsSimulator M)
    (offsetSeconds : Int) (hosts : List (Host M)) (series : List TimeSeries)
    (hg : h.hosts.get? offsetSeconds = some hosts)
    (hok : (Generate c h offsetSeconds).1 = .ok (some series)) :
    series.length = (bucketFields c hosts).length ∧
      (∀ ts x, (ts, x) ∈ series.zip (bucketFields c hosts) →
        ts.Labels.length = 12 ∧
        ts.Labels =
          [ { Name := c.MachineTagKeys 0, Value := x.host.Name },
            { Name := c.MachineTagKeys 1, Value := x.host.Region },
            { Name := c.MachineTagKeys 2, Value := x.host.Datacenter },
            { Name := c.MachineTagKeys 3, Value := x.host.Rack },
            { Name := c.MachineTagKeys 4, Value := x.host.OS },
            { Name := c.MachineTagKeys 5, Value := x.host.Arch },
            { Name := c.MachineTagKeys 6, Value := x.host.Team },
            { Name := c.MachineTagKeys 7, Value := x.host.Service },
            { Name := c.MachineTagKeys 8, Value := x.host.ServiceVersion },
            { Name := c.MachineTagKeys 9, Value := x.host.ServiceEnvironment },
            { Name := "measurement", Value := x.fieldName },
            { Name := c.MetricName, Value := x.point.MeasurementName } ]) ∧
      (∀ ts1 x1 ts2 x2, (ts1, x1) ∈ series.zip (bucketFields c hosts) →
        (ts2, x2) ∈ series.zip (bucketFields c hosts) →
        x1.host = x2.host → x1.point = x2.point →
        ts1.Labels = ts2.Labels.set 10 { Name := "measurement", Value := x1.fieldName }) := by
  obtain ⟨hlen, hz⟩ := generate_zip c h offsetSeconds hosts series hg hok
  refine ⟨hlen, ?_, ?_⟩
  · intro ts x hmem
    rw [(hz ts x hmem).2]
    exact ⟨rfl, rfl⟩
  · intro ts1 x1 ts2 x2 hm1 hm2 hh hp
    rw [(hz ts1 x1 hm1).2, (hz ts2 x2 hm2).2, hh, hp]
    rfl

/-- C7, as amended: in every series that `Generate` returns, the eleventh label has the
constant name "measurement", and its value is the name of the field that the series was
produced from. -/
theorem generate_measurement_label {M : Type} (c : Collaborators M) (h : HostsSimulator M)
    (offsetSeconds : Int) (hosts : List (Host M)) (series : List TimeSeries)
    (hg : h.hosts.get? offsetSeconds = some hosts)
    (hok : (Generate c h offsetSeconds).1 = .ok (some series)) :
    ∀ ts x, (ts, x) ∈ series.zip (bucketFields c hosts) →
      ts.Labels[10]? = some { Name := "measurement", Value := x.fieldName } := by
  obtain ⟨_, hz⟩ := generate_zip c h offsetSeconds hosts series hg hok
  intro ts x hmem
  rw [(hz ts x hmem).2]
  rfl

/-- C8: every series that `Generate` returns has exactly one sample, and the timestamp of the
sample is the Unix seconds of the timestamp of the point of its field; two series from equal
points have the same timestamp and the same value of the metric-name label, the measurement
name of the point. -/
theorem generate_samples {M : Type} (c : Collaborators M) (h : HostsSimulator M)
    (offsetSeconds : Int) (hosts : List (Host M)) (series : List TimeSeries)
    (hg : h.hosts.get? offsetSeconds = some hosts)
    (hok : (Generate c h offsetSeconds).1 = .ok (some series)) :
    (∀ ts x, (ts, x) ∈ series.zip (bucketFields c hosts) →
      ts.Samples.length = 1 ∧
      ts.Samples.map Sample.Timestamp = [x.point.Timestamp.Unix] ∧
      ts.Labels[11]? = some { Name := c.MetricName, Value := x.point.MeasurementName }) ∧
    (∀ ts1 x1 ts2 x2, (ts1, x1) ∈ series.zip (bucketFields c hosts) →
      (ts2, x2) ∈ series.zip (bucketFields c hosts) → x1.point = x2.point →
      ts1.Samples.map Sample.Timestamp = ts2.Samples.map Sample.Timestamp ∧
      (ts1.Labels[11]?).map Label.Value = (ts2.Labels[11]?).map Label.Value) := by
  obtain ⟨_, hz⟩ := generate_zip c h offsetSeconds hosts series hg hok
  constructor
  · intro ts x hmem
    rw [(hz ts x hmem).2]
    exact ⟨rfl, rfl, rfl⟩
  · intro ts1 x1 ts2 x2 hm1 hm2 hp
    rw [(hz ts1 x1 hm1).2, (hz ts2 x2 hm2).2, hp]
    exact ⟨rfl, rfl⟩

/-- C9: the field of every series that `Generate` returns has a supported kind, and the value
of the sample is the field value as a float64: a float field value is passed on as it is, and
an int or int64 field value `v` is converted, to the float that equals `v` when
`|v| <= 2 ^ 53`. -/
theorem generate_sample_value {M : Type} (c : Collaborators M) (h : HostsSimulator M)
    (offsetSeconds : Int) (hosts : List (Host M)) (series : List TimeSeries)
    (hg : h.hosts.get? offsetSeconds = some hosts)
    (hok : (Generate c h offsetSeconds).1 = .ok (some series)) :
    ∀ ts x, (ts, x) ∈ series.zip (bucketFields c hosts) →
      x.value.supported = true ∧
      (∀ f : Float64, x.value = .float64 f → ts.Samples.map Sample.Value = [f]) ∧
      (∀ v : Int, x.value = .int v ∨ x.value = .int64 v →
        ts.Samples.map Sample.Value = [float64OfInt v] ∧
        (|v| ≤ 2 ^ 53 → ts.Samples.map Sample.Value = [.finite (v : ℚ)])) := by
  obtain ⟨_, hz⟩ := generate_zip c h offsetSeconds hosts series hg hok
  intro ts x hmem
  refine ⟨(hz ts x hmem).1, ?_, ?_⟩
  · intro f hf
    rw [(hz ts x hmem).2, hf]
    rfl
  · intro v hv
    have hval : ts.Samples.map Sample.Value = [float64OfInt v] := by
      rw [(hz ts x hmem).2]
      rcases hv with hv | hv <;> rw [hv] <;> rfl
    refine ⟨hval, ?_⟩
    intro hle
    rw [hval, float64OfInt_exact v hle]

/-- C10, as amended: when the bucket of the offset exists and every current point of its hosts
has a value for each field key, `Generate` panics exactly when some field of the current point of
some measurement of some host of the bucket has an unsupported kind; the panic is then the
one whose message names the first such field, in the order host, measurement, field, and the
type name of its value. -/
theorem generate_panics_iff {M : Type} (c : Collaborators M) (h : HostsSimulator M)
    (offsetSeconds : Int) (hosts : List (Host M))
    (hg : h.hosts.get? offsetSeconds = some hosts)
    (hwf : ∀ host ∈ hosts, ∀ m ∈ host.SimulatedMeasurements, (currentPoint c m).wellFormed) :
    ((∃ e, (Generate c h offsetSeconds).1 = .error e) ↔
      ∃ host ∈ hosts, ∃ m ∈ host.SimulatedMeasurements, ∃ f ∈ (currentPoint c m).fields,
        f.2.supported = false) ∧
    ((∃ e, (Generate c h offsetSeconds).1 = .error e) →
      ∃ x, (bucketFields c hosts).find? (fun x => !x.value.supported) = some x) ∧
    (∀ x, (bucketFields c hosts).find? (fun x => !x.value.supported) = some x →
      ∃ typeName, x.value = .other typeName ∧
        (Generate c h offsetSeconds).1 =
          .error (.panic (panicMessage x.fieldName typeName))) := by
  have hgen : (Generate c h offsetSeconds).1 = (readResult c (bucketFields c hosts)).map some := by
    rw [generate_of_some c h offsetSeconds hosts hg]
    simp only
    rw [generateHosts_eq c _ hosts hwf]
  have hfind : ∀ x, (bucketFields c hosts).find? (fun x => !x.value.supported) = some x →
      ∃ typeName, x.value = .other typeName ∧
        (Generate c h offsetSeconds).1 =
          .error (.panic (panicMessage x.fieldName typeName)) := by
    intro x hx
    obtain ⟨t, ht, hr⟩ := readResult_of_find c _ x hx
    exact ⟨t, ht, by rw [hgen, hr]; rfl⟩
  have hfirst : (∃ e, (Generate c h offsetSeconds).1 = .error e) →
      ∃ x, (bucketFields c hosts).find? (fun x => !x.value.supported) = some x := by
    rintro ⟨e, he⟩
    cases hf : (bucketFields c hosts).find? (fun x => !x.value.supported) with
    | some x => exact ⟨x, rfl⟩
    | none =>
      have hall : ∀ x ∈ bucketFields c hosts, x.value.supported = true := by
        intro x hx
        have := List.find?_eq_none.mp hf x hx
        simpa using this
      rw [hgen, readResult_of_supported c _ hall] at he
      cases he
  refine ⟨⟨?_, ?_⟩, hfirst, hfind⟩
  · intro he
    obtain ⟨x, hx⟩ := hfirst he
    have hmem := List.mem_of_find?_eq_some hx
    have hbad := List.find?_some hx
    obtain ⟨host, hh, m, hm, f, hf, rfl⟩ := (mem_bucketFields c hosts x).mp hmem
    exact ⟨host, hh, m, hm, f, hf, by simpa using hbad⟩
  · rintro ⟨host, hh, m, hm, f, hf, hbad⟩
    have hmem : ({ host := host, point := currentPoint c m, fieldName := f.1, value := f.2 } :
        FieldRead M) ∈ bucketFields c hosts :=
      (mem_bucketFields c hosts _).mpr ⟨host, hh, m, hm, f, hf, rfl⟩
    cases hf2 : (bucketFields c hosts).find? (fun x => !x.value.supported) with
    | some x =>
      obtain ⟨t, _, hr⟩ := hfind x hf2
      exact ⟨_, hr⟩
    | none =>
      have := List.find?_eq_none.mp hf2 _ hmem
      simp [hbad] at this

theorem newHostsSimulator_partition_witness :
    (0 : Int) ≤ 4 ∧ (0 : Int) < 2 ∧ (4 : Int).tdiv 2 + 1 ≤ 9223372036854775807 ∧
    indexBuckets 4 2 = .ok [(0, [0, 2]), (1, [1, 3])] ∧
    ∃ (h : HostsSimulator Point) (idx : HostMap Nat),
      NewHostsSimulator sampleCollaborators (fun _ => 0) 4 2 ⟨0⟩ = .ok h ∧
      indexBuckets 4 2 = .ok idx ∧
      h.hosts = idx.map (fun b =>
        (b.1, b.2.map (fun i => hostAt sampleCollaborators (fun _ => 0) ⟨0⟩ i ((i : Int).tmod 2)))) ∧
      idx.keys = (List.range (2 : Int).toNat).map (fun (k : Nat) => (k : Int)) ∧
      (∀ j : Nat, (j : Int) < 4 →
        (idx.get? ((j : Int).tmod 2)).map (List.count j) = some 1 ∧
        ∀ b ∈ idx, b.2.count j = if b.1 = (j : Int).tmod 2 then 1 else 0) ∧
      (((h.hosts.map (fun b => b.2.length)).sum : Nat) : Int) = 4 :=
  ⟨by decide, by decide, by decide, rfl,
    newHostsSimulator_partition sampleCollaborators (fun _ => 0) ⟨0⟩ 4 2 (by decide) (by decide)
      (by decide)⟩

/-- The claim C1 fails as it is stated: for `hostCount = 9223372036854775807`, the largest
`int`, and an interval of one second the capacity `hostCount/1 + 1` of the first bucket wraps to
`-9223372036854775808`, and the constructor panics in `make` before it places a host: it returns
no pool, so no host index is in a bucket. -/
theorem newHostsSimulator_partition_counterexample :
    (0 : Int) ≤ 9223372036854775807 ∧ (0 : Int) < 1 ∧
    wrapInt64 ((9223372036854775807 : Int).tdiv 1 + 1) = -9223372036854775808 ∧
    NewHostsSimulator sampleCollaborators (fun _ => 0) 9223372036854775807 1 ⟨0⟩ =
      .error .makesliceCap ∧
    ¬ ∃ h : HostsSimulator Point,
      NewHostsSimulator sampleCollaborators (fun _ => 0) 9223372036854775807 1 ⟨0⟩ = .ok h ∧
      (((h.hosts.map (fun b => b.2.length)).sum : Nat) : Int) = 9223372036854775807 := by
  have hf := newHostsSimulator_makeslice sampleCollaborators (fun _ => 0) ⟨0⟩
    9223372036854775807 1 (by decide) (by decide)
  refine ⟨by decide, by decide, by decide, hf, ?_⟩
  rintro ⟨h, hnew, _⟩
  rw [hf] at hnew
  cases hnew

theorem newHostsSimulator_bucket_sizes_witness :
    (0 : Int) ≤ 7 ∧ (0 : Int) < 3 ∧ (7 : Int).tdiv 3 + 1 ≤ 9223372036854775807 ∧
    ∃ h : HostsSimulator Point,
      NewHostsSimulator sampleCollaborators (fun _ => 0) 7 3 ⟨0⟩ = .ok h ∧
      (∀ i : Int, 0 ≤ i → i < 3 →
        ∃ hosts, h.hosts.get? i = some hosts ∧
          (hosts.length : Int) = (7 : Int).tdiv 3 + (if i < (7 : Int).tmod 3 then 1 else 0)) ∧
      (∀ (i1 i2 : Int) (b1 b2 : List (Host Point)),
        h.hosts.get? i1 = some b1 → h.hosts.get? i2 = some b2 →
          (i1 ≤ i2 → b2.length ≤ b1.length) ∧ b1.length ≤ b2.length + 1) :=
  ⟨by decide, by decide, by decide,
    newHostsSimulator_bucket_sizes sampleCollaborators (fun _ => 0) ⟨0⟩ 7 3 (by decide) (by decide)
      (by decide)⟩

/-- The claim C2 fails as it is stated: for `hostCount = 9223372036854775807` and an interval
of one second the bucket of the offset `0` would have `hostCount / 1 = 9223372036854775807`
hosts, but the capacity `hostCount/1 + 1` wraps to a negative `int` and the constructor panics
in `make`: no bucket is built. -/
theorem newHostsSimulator_bucket_sizes_counterexample :
    (0 : Int) ≤ 9223372036854775807 ∧ (0 : Int) < 1 ∧
    (9223372036854775807 : Int).tdiv 1 = 9223372036854775807 ∧
    wrapInt64 ((9223372036854775807 : Int).tdiv 1 + 1) < 0 ∧
    NewHostsSimulator sampleCollaborators (fun _ => 0) 9223372036854775807 1 ⟨0⟩ =
      .error .makesliceCap ∧
    ¬ ∃ (h : HostsSimulator Point) (hosts : List (Host Point)),
      NewHostsSimulator sampleCollaborators (fun _ => 0) 9223372036854775807 1 ⟨0⟩ = .ok h ∧
      h.hosts.get? 0 = some hosts ∧
      (hosts.length : Int) = (9223372036854775807 : Int).tdiv 1 +
        (if (0 : Int) < (9223372036854775807 : Int).tmod 1 then 1 else 0) := by
  have hf := newHostsSimulator_makeslice sampleCollaborators (fun _ => 0) ⟨0⟩
    9223372036854775807 1 (by decide) (by decide)
  refine ⟨by decide, by decide, by decide, by decide, hf, ?_⟩
  rintro ⟨h, hosts, hnew, _⟩
  rw [hf] at hnew
  cases hnew

theorem generate_out_of_range_witness :
    ∃ h : HostsSimulator Point,
      NewHostsSimulator sampleCollaborators (fun _ => 0) 4 2 ⟨0⟩ = .ok h ∧
      (0 : Int) < 2 ∧ ((2 : Int) < 0 ∨ (2 : Int) ≤ 2) ∧
      Generate sampleCollaborators h 2 = (.ok none, h) :=
  ⟨_, newHostsSimulator_eq sampleCollaborators (fun _ => 0) ⟨0⟩ 4 2 (by decide) (by decide),
    by decide, by decide,
    generate_out_of_range sampleCollaborators 4 2 _ 2
      (Built.new (fun _ => 0) ⟨0⟩ _
        (newHostsSimulator_eq sampleCollaborators (fun _ => 0) ⟨0⟩ 4 2 (by decide) (by decide)))
      (by decide) (by decide)⟩

/-- The claim C4 fails as it is stated: on the pool built for one host and an interval of one
second, with a host that reports a string field, `Generate` at the offset `0` of the existing
bucket panics and returns no slice. -/
theorem generate_in_range_counterexample :
    NewHostsSimulator stringCollaborators (fun _ => 0) 1 1 ⟨0⟩ = .ok stringPool ∧
    (0 : Int) < 1 ∧
    stringPool.hosts.get? 0 = some stringBucket ∧
    (Generate stringCollaborators stringPool 0).1 =
      .error (.panic "Cannot field hostname with value type: string with ") ∧
    ¬ ∃ series, (Generate stringCollaborators stringPool 0).1 = .ok (some series) := by
  refine ⟨rfl, by decide, rfl, rfl, ?_⟩
  rintro ⟨series, hs⟩
  have h2 : (Generate stringCollaborators stringPool 0).1 =
      .error (.panic "Cannot field hostname with value type: string with ") := rfl
  rw [h2] at hs
  cases hs

theorem generate_in_range_witness :
    ∃ h : HostsSimulator Point,
      NewHostsSimulator sampleCollaborators (fun _ => 0) 1 3 ⟨0⟩ = .ok h ∧
      (0 : Int) < 3 ∧ (0 : Int) ≤ 2 ∧ (2 : Int) < 3 ∧ (1 : Int) ≤ 2 ∧
      h.hosts.get? 2 = some [] ∧
      (Generate sampleCollaborators h 2).1 = .ok (some []) ∧
      (Generate sampleCollaborators h 3).1 ≠ (Generate sampleCollaborators h 2).1 := by
  have hnew := newHostsSimulator_eq sampleCollaborators (fun _ => 0) ⟨0⟩ 1 3 (by decide) (by decide)
  obtain ⟨hosts, hg, _, _, hempty⟩ :=
    generate_in_range sampleCollaborators 1 3 _ 2 (Built.new (fun _ => 0) ⟨0⟩ _ hnew)
      (by decide) (by decide) (by decide)
  obtain ⟨hnil, hgen, hdiff⟩ := hempty (by decide)
  subst hnil
  exact ⟨_, hnew, by decide, by decide, by decide, by decide, hg, hgen,
    hdiff 3 (Or.inr (by decide))⟩

theorem sampleBucket_supported :
    ∀ host ∈ sampleBucket, ∀ m ∈ host.SimulatedMeasurements,
      (currentPoint sampleCollaborators m).supported = true := by
  decide

theorem samplePool_generate :
    (Generate sampleCollaborators samplePool 0).1 = .ok (some sampleSeries) :=
  generate_supported sampleCollaborators samplePool 0 sampleBucket rfl sampleBucket_supported

theorem generate_series_count_witness :
    samplePool.hosts.get? 0 = some sampleBucket ∧
    (∀ host ∈ sampleBucket, ∀ m ∈ host.SimulatedMeasurements,
      (currentPoint sampleCollaborators m).supported = true) ∧
    ∃ series, (Generate sampleCollaborators samplePool 0).1 = .ok (some series) ∧
      series.length = 2 * 1 * 2 := by
  obtain ⟨series, hgen, _, hkmf⟩ :=
    generate_series_count sampleCollaborators samplePool 0 sampleBucket rfl sampleBucket_supported
  exact ⟨rfl, sampleBucket_supported, series, hgen,
    hkmf 2 1 2 rfl (by decide) (by decide)⟩

theorem generate_labels_witness :
    samplePool.hosts.get? 0 = some sampleBucket ∧
    (Generate sampleCollaborators samplePool 0).1 = .ok (some sampleSeries) ∧
    sampleSeries.length = (bucketFields sampleCollaborators sampleBucket).length ∧
    (∀ ts x, (ts, x) ∈ sampleSeries.zip (bucketFields sampleCollaborators sampleBucket) →
      ts.Labels.length = 12 ∧
      ts.Labels =
        [ { Name := sampleCollaborators.MachineTagKeys 0, Value := x.host.Name },
          { Name := sampleCollaborators.MachineTagKeys 1, Value := x.host.Region },
          { Name := sampleCollaborators.MachineTagKeys 2, Value := x.host.Datacenter },
          { Name := sampleCollaborators.MachineTagKeys 3, Value := x.host.Rack },
          { Name := sampleCollaborators.MachineTagKeys 4, Value := x.host.OS },
          { Name := sampleCollaborators.MachineTagKeys 5, Value := x.host.Arch },
          { Name := sampleCollaborators.MachineTagKeys 6, Value := x.host.Team },
          { Name := sampleCollaborators.MachineTagKeys 7, Value := x.host.Service },
          { Name := sampleCollaborators.MachineTagKeys 8, Value := x.host.ServiceVersion },
          { Name := sampleCollaborators.MachineTagKeys 9, Value := x.host.ServiceEnvironment },
          { Name := "measurement", Value := x.fieldName },
          { Name := sampleCollaborators.MetricName, Value := x.point.MeasurementName } ]) ∧
    (∀ ts1 x1 ts2 x2,
      (ts1, x1) ∈ sampleSeries.zip (bucketFields sampleCollaborators sampleBucket) →
      (ts2, x2) ∈ sampleSeries.zip (bucketFields sampleCollaborators sampleBucket) →
      x1.host = x2.host → x1.point = x2.point →
      ts1.Labels = ts2.Labels.set 10 { Name := "measurement", Value := x1.fieldName }) :=
  ⟨rfl, samplePool_generate,
    generate_labels sampleCollaborators samplePool 0 sampleBucket sampleSeries rfl
      samplePool_generate⟩

/-- The claim C7 fails as it is stated: the first series that `Generate` returns for the
sample pool comes from the field named "usage_user", and its eleventh label is named
"measurement", not "usage_user"; the field name is the value of the label. -/
theorem generate_measurement_label_counterexample :
    samplePool.hosts.get? 0 = some sampleBucket ∧
    (Generate sampleCollaborators samplePool 0).1 = .ok (some sampleSeries) ∧
    ((bucketFields sampleCollaborators sampleBucket)[0]?).map FieldRead.fieldName
      = some "usage_user" ∧
    (sampleSeries[0]?).map (fun ts => (ts.Labels[10]?).map Label.Name)
      = some (some "measurement") ∧
    (sampleSeries[0]?).map (fun ts => (ts.Labels[10]?).map Label.Name)
      ≠ some (some "usage_user") := by
  refine ⟨rfl, samplePool_generate, rfl, rfl, ?_⟩
  decide

theorem generate_measurement_label_witness :
    samplePool.hosts.get? 0 = some sampleBucket ∧
    (Generate sampleCollaborators samplePool 0).1 = .ok (some sampleSeries) ∧
    ∀ ts x, (ts, x) ∈ sampleSeries.zip (bucketFields sampleCollaborators sampleBucket) →
      ts.Labels[10]? = some { Name := "measurement", Value := x.fieldName } :=
  ⟨rfl, samplePool_generate,
    generate_measurement_label sampleCollaborators samplePool 0 sampleBucket sampleSeries rfl
      samplePool_generate⟩

theorem generate_samples_witness :
    samplePool.hosts.get? 0 = some sampleBucket ∧
    (Generate sampleCollaborators samplePool 0).1 = .ok (some sampleSeries) ∧
    (∀ ts x, (ts, x) ∈ sampleSeries.zip (bucketFields sampleCollaborators sampleBucket) →
      ts.Samples.length = 1 ∧
      ts.Samples.map Sample.Timestamp = [x.point.Timestamp.Unix] ∧
      ts.Labels[11]? =
        some { Name := sampleCollaborators.MetricName, Value := x.point.MeasurementName }) ∧
    (∀ ts1 x1 ts2 x2,
      (ts1, x1) ∈ sampleSeries.zip (bucketFields sampleCollaborators sampleBucket) →
      (ts2, x2) ∈ sampleSeries.zip (bucketFields sampleCollaborators sampleBucket) →
      x1.point = x2.point →
      ts1.Samples.map Sample.Timestamp = ts2.Samples.map Sample.Timestamp ∧
      (ts1.Labels[11]?).map Label.Value = (ts2.Labels[11]?).map Label.Value) :=
  ⟨rfl, samplePool_generate,
    generate_samples sampleCollaborators samplePool 0 sampleBucket sampleSeries rfl
      samplePool_generate⟩

theorem generate_sample_value_witness :
    samplePool.hosts.get? 0 = some sampleBucket ∧
    (Generate sampleCollaborators samplePool 0).1 = .ok (some sampleSeries) ∧
    sampleSeries.map (fun ts => ts.Samples.map Sample.Value) =
      [[.finite 42], [.finite (1 / 2)], [.finite 42], [.finite (1 / 2)]] ∧
    ∀ ts x, (ts, x) ∈ sampleSeries.zip (bucketFields sampleCollaborators sampleBucket) →
      x.value.supported = true ∧
      (∀ f : Float64, x.value = .float64 f → ts.Samples.map Sample.Value = [f]) ∧
      (∀ v : Int, x.value = .int v ∨ x.value = .int64 v →
        ts.Samples.map Sample.Value = [float64OfInt v] ∧
        (|v| ≤ 2 ^ 53 → ts.Samples.map Sample.Value = [.finite (v : ℚ)])) :=
  ⟨rfl, samplePool_generate, rfl,
    generate_sample_value sampleCollaborators samplePool 0 sampleBucket sampleSeries rfl
      samplePool_generate⟩

theorem generate_panics_iff_witness :
    stringPool.hosts.get? 0 = some stringBucket ∧
    (∀ host ∈ stringBucket, ∀ m ∈ host.SimulatedMeasurements,
      (currentPoint stringCollaborators m).wellFormed) ∧
    (Generate stringCollaborators stringPool 0).1 =
      .error (.panic "Cannot field hostname with value type: string with ") ∧
    ((∃ e, (Generate stringCollaborators stringPool 0).1 = .error e) ↔
      ∃ host ∈ stringBucket, ∃ m ∈ host.SimulatedMeasurements,
        ∃ f ∈ (currentPoint stringCollaborators m).fields, f.2.supported = false) ∧
    ((∃ e, (Generate stringCollaborators stringPool 0).1 = .error e) →
      ∃ x, (bucketFields stringCollaborators stringBucket).find?
        (fun x => !x.value.supported) = some x) ∧
    (∀ x, (bucketFields stringCollaborators stringBucket).find?
        (fun x => !x.value.supported) = some x →
      ∃ typeName, x.value = .other typeName ∧
        (Generate stringCollaborators stringPool 0).1 =
          .error (.panic (panicMessage x.fieldName typeName))) :=
  ⟨rfl, by decide, rfl,
    generate_panics_iff stringCollaborators stringPool 0 stringBucket rfl (by decide)⟩

/-- The claim C10 fails as it is stated: the point of the one host of the pool has two field
keys and the single value `42`, an int; `Generate` panics with an index out of range, and no
value of the point has an unsupported kind. -/
theorem generate_panics_iff_counterexample :
    NewHostsSimulator shortCollaborators (fun _ => 0) 1 1 ⟨0⟩ = .ok shortPool ∧
    shortPool.hosts.get? 0 = some shortBucket ∧
    (Generate shortCollaborators shortPool 0).1 = .error (.indexOutOfRange 1 1) ∧
    (∀ host ∈ shortBucket, ∀ m ∈ host.SimulatedMeasurements,
      ∀ v ∈ (currentPoint shortCollaborators m).FieldValues, v.supported = true) ∧
    ¬ ((∃ e, (Generate shortCollaborators shortPool 0).1 = .error e) ↔
      ∃ host ∈ shortBucket, ∃ m ∈ host.SimulatedMeasurements,
        ∃ f ∈ (currentPoint shortCollaborators m).fields, f.2.supported = false) := by
  refine ⟨rfl, rfl, rfl, by decide, ?_⟩
  intro hiff
  have hbad := hiff.mp ⟨_, rfl⟩
  revert hbad
  decide

/-! ## Durations -/

theorem secondsDuration_eq (n : Int) (h1 : -9223372036 ≤ n) (h2 : n ≤ 9223372036) :
    secondsDuration n = n * 1000000000 := by
  unfold secondsDuration wrapInt64 Second
  have h : (n * 1000000000 + 2 ^ 63) % 2 ^ 64 = n * 1000000000 + 2 ^ 63 :=
    Int.emod_eq_of_lt (by norm_num; omega) (by norm_num; omega)
  rw [h]
  ring

/-! ## Generate: the pool after a call -/

theorem generateHosts_ok_state {M : Type} (c : Collaborators M) (d : Duration)
    (hosts : List (Host M)) (series : List TimeSeries)
    (h : (generateHosts c d hosts).1 = .ok series) :
    (generateHosts c d hosts).2 = hosts.map (fun host => host.TickAll c d) := by
  induction hosts generalizing series with
  | nil => rfl
  | cons host rest ih =>
    simp only [generateHosts] at h ⊢
    cases hp : hostSeries c host host.SimulatedMeasurements with
    | error e => rw [hp] at h; cases h
    | ok a =>
      rw [hp] at h
      simp only at h ⊢
      rcases hr : generateHosts c d rest with ⟨r, rest1⟩
      rw [hr] at h
      cases r with
      | error e => cases h
      | ok b =>
        have := ih b (by rw [hr])
        rw [hr] at this
        simp only at this
        simp only [List.map_cons, this]

theorem generateHosts_abort_at {M : Type} (c : Collaborators M) (d : Duration)
    (pre : List (Host M)) (host : Host M) (post : List (Host M)) (e : Fault)
    (hpre : ∀ x ∈ pre, ∃ series, hostSeries c x x.SimulatedMeasurements = .ok series)
    (hhost : hostSeries c host host.SimulatedMeasurements = .error e) :
    generateHosts c d (pre ++ host :: post) =
      (.error e, pre.map (fun x => x.TickAll c d) ++ host :: post) := by
  induction pre with
  | nil =>
    simp only [List.nil_append, generateHosts, hhost, List.map_nil]
  | cons x rest ih =>
    obtain ⟨series, hx⟩ := hpre x (List.mem_cons_self _ _)
    have := ih (fun y hy => hpre y (List.mem_cons_of_mem _ hy))
    rw [List.cons_append, List.map_cons, List.cons_append]
    show generateHosts c d (x :: (rest ++ host :: post)) = _
    unfold generateHosts
    rw [hx]
    simp only
    rw [this]

theorem generateHosts_identity {M : Type} (c : Collaborators M) (d : Duration)
    (hosts : List (Host M)) :
    (generateHosts c d hosts).2.map Host.identity = hosts.map Host.identity := by
  induction hosts with
  | nil => rfl
  | cons host rest ih =>
    simp only [generateHosts]
    cases hostSeries c host host.SimulatedMeasurements with
    | error e => rfl
    | ok a =>
      simp only
      rcases hr : generateHosts c d rest with ⟨r, rest1⟩
      rw [hr] at ih
      simp only at ih
      cases r <;> simp only [List.map_cons, ih] <;> rfl

theorem HostMap.mem_keys_of_get? {α : Type} (m : HostMap α) (k : Int) (v : List α)
    (h : m.get? k = some v) : k ∈ m.keys := by
  by_contra hk
  rw [(HostMap.get?_eq_none_iff m k).mpr hk] at h
  cases h

theorem HostMap.set_map_of_get? {α β : Type} (g : List α → β) (m : HostMap α) (k : Int)
    (v w : List α) (hg : m.get? k = some v) (hvw : g w = g v) :
    (m.set k w).map (fun b => (b.1, g b.2)) = m.map (fun b => (b.1, g b.2)) := by
  induction m with
  | nil => simp [HostMap.get?] at hg
  | cons b rest ih =>
    obtain ⟨k0, v0⟩ := b
    by_cases h0 : k0 = k
    · simp only [HostMap.get?, h0, if_true] at hg
      have hv : v0 = v := Option.some.inj hg
      subst hv
      simp only [HostMap.set, h0, if_true, List.map_cons, hvw]
    · simp only [HostMap.get?, h0, if_false] at hg
      simp only [HostMap.set, h0, if_false, List.map_cons, ih hg]

/-- C12: a call of `Generate`, whether it returns or panics, leaves `scrapeIntervalSeconds`,
the keys of the map and every bucket other than the one of the offset as they were; in every
bucket the hosts keep their number, their order and their ten identity fields; and when the
offset has no bucket the pool is unchanged. -/
theorem generate_frame {M : Type} (c : Collaborators M) (h : HostsSimulator M)
    (offsetSeconds : Int) :
    (Generate c h offsetSeconds).2.scrapeIntervalSeconds = h.scrapeIntervalSeconds ∧
    (Generate c h offsetSeconds).2.hosts.keys = h.hosts.keys ∧
    (∀ k : Int, k ≠ offsetSeconds →
      (Generate c h offsetSeconds).2.hosts.get? k = h.hosts.get? k) ∧
    (Generate c h offsetSeconds).2.hosts.map (fun b => (b.1, b.2.map Host.identity)) =
      h.hosts.map (fun b => (b.1, b.2.map Host.identity)) ∧
    (∀ k : Int, ((Generate c h offsetSeconds).2.hosts.get? k).map (List.map Host.identity) =
      (h.hosts.get? k).map (List.map Host.identity)) ∧
    (h.hosts.get? offsetSeconds = none → (Generate c h offsetSeconds).2 = h) := by
  cases hg : h.hosts.get? offsetSeconds with
  | none =>
    rw [generate_of_none c h offsetSeconds hg]
    exact ⟨rfl, rfl, fun _ _ => rfl, rfl, fun _ => rfl, fun _ => rfl⟩
  | some hosts =>
    rw [generate_of_some c h offsetSeconds hosts hg]
    refine ⟨rfl, ?_, ?_, ?_, ?_, ?_⟩
    · exact HostMap.keys_set_of_mem _ _ _ (HostMap.mem_keys_of_get? _ _ _ hg)
    · intro k hk
      simp only
      rw [HostMap.get?_set, if_neg (fun e => hk e.symm)]
    · exact HostMap.set_map_of_get? (List.map Host.identity) _ _ hosts _ hg
        (generateHosts_identity c _ hosts)
    · intro k
      simp only
      rw [HostMap.get?_set]
      by_cases hk : offsetSeconds = k
      · subst hk
        rw [if_pos rfl, hg, Option.map_some', Option.map_some', generateHosts_identity]
      · rw [if_neg hk]
    · intro hnone
      cases hnone

theorem generate_frame_witness :
    (Generate sampleCollaborators samplePool 0).2.scrapeIntervalSeconds = 2 ∧
    (Generate sampleCollaborators samplePool 0).2.hosts.keys = [0, 1] ∧
    (Generate sampleCollaborators samplePool 0).2.hosts.get? 1 = samplePool.hosts.get? 1 ∧
    ((Generate sampleCollaborators samplePool 0).2.hosts.get? 0).map (List.map Host.identity) =
      (samplePool.hosts.get? 0).map (List.map Host.identity) ∧
    (Generate sampleCollaborators samplePool 2).2.hosts = samplePool.hosts :=
  ⟨(generate_frame sampleCollaborators samplePool 0).1,
    (generate_frame sampleCollaborators samplePool 0).2.1,
    (generate_frame sampleCollaborators samplePool 0).2.2.1 1 (by decide),
    (generate_frame sampleCollaborators samplePool 0).2.2.2.2.1 0,
    congrArg HostsSimulator.hosts ((generate_frame sampleCollaborators samplePool 2).2.2.2.2.2 rfl)⟩

/-! ## A zero interval -/

theorem placeHosts_zero_fault {α : Type} (mk : Nat → Int → α) (hostCount : Int)
    (hc : 0 < hostCount) (hosts : HostMap α) :
    placeHosts mk hostCount 0 hosts = .error .divideByZero := by
  unfold placeHosts
  obtain ⟨n, hn⟩ : ∃ n, hostCount.toNat = n + 1 := ⟨hostCount.toNat - 1, by omega⟩
  rw [hn, List.range_succ_eq_map, List.foldlM_cons]
  rfl

/-- C16: with `scrapeIntervalSeconds = 0` the constructor panics with a division by zero when
`hostCount > 0`, and returns the pool without buckets when `hostCount <= 0`; on that pool
`Generate` returns the nil slice for every offset and leaves the pool as it is. -/
theorem newHostsSimulator_zero_interval {M : Type} (c : Collaborators M) (rnd : Nat → Int)
    (start : Time) (hostCount : Int) :
    (0 < hostCount →
      NewHostsSimulator c rnd hostCount 0 start = .error .divideByZero) ∧
    (hostCount ≤ 0 →
      NewHostsSimulator c rnd hostCount 0 start =
        .ok { hosts := [], scrapeIntervalSeconds := 0 } ∧
      ∀ offsetSeconds : Int,
        Generate c { hosts := [], scrapeIntervalSeconds := 0 } offsetSeconds =
          (.ok none, { hosts := [], scrapeIntervalSeconds := 0 })) := by
  constructor
  · intro hc
    unfold NewHostsSimulator buildHosts
    have halloc : allocBuckets hostCount 0 = (.ok [] : Except Fault (HostMap (Host M))) := rfl
    rw [halloc]
    show Except.map _ (placeHosts _ hostCount 0 []) = _
    rw [placeHosts_zero_fault _ _ hc]
    rfl
  · intro hc
    constructor
    · unfold NewHostsSimulator buildHosts
      have halloc : allocBuckets hostCount 0 = (.ok [] : Except Fault (HostMap (Host M))) := rfl
      rw [halloc]
      show Except.map _ (placeHosts _ hostCount 0 []) = _
      unfold placeHosts
      have h0 : hostCount.toNat = 0 := by omega
      rw [h0]
      rfl
    · intro offsetSeconds
      rfl

theorem newHostsSimulator_zero_interval_witness :
    ((0 : Int) < 3 →
      NewHostsSimulator sampleCollaborators (fun _ => 0) 3 0 ⟨0⟩ = .error .divideByZero) ∧
    ((0 : Int) ≤ 0 →
      NewHostsSimulator sampleCollaborators (fun _ => 0) 0 0 ⟨0⟩ =
        .ok { hosts := [], scrapeIntervalSeconds := 0 } ∧
      ∀ offsetSeconds : Int,
        Generate sampleCollaborators { hosts := [], scrapeIntervalSeconds := 0 } offsetSeconds =
          (.ok none, { hosts := [], scrapeIntervalSeconds := 0 })) :=
  ⟨(newHostsSimulator_zero_interval sampleCollaborators (fun _ => 0) ⟨0⟩ 3).1,
    (newHostsSimulator_zero_interval sampleCollaborators (fun _ => 0) ⟨0⟩ 0).2⟩

/-! ## The advance of a call that returns -/

theorem generate_ok_state {M : Type} (c : Collaborators M) (h : HostsSimulator M)
    (offset : Int) (hosts : List (Host M)) (series : List TimeSeries)
    (hg : h.hosts.get? offset = some hosts)
    (hok : (Generate c h offset).1 = .ok (some series)) :
    (Generate c h offset).2.hosts.get? offset =
      some (hosts.map (fun host => host.TickAll c (secondsDuration h.scrapeIntervalSeconds))) := by
  rw [generate_of_some c h offset hosts hg] at hok ⊢
  simp only at hok ⊢
  rw [HostMap.get?_set, if_pos rfl]
  cases hr : (generateHosts c (secondsDuration h.scrapeIntervalSeconds) hosts).1 with
  | error e => rw [hr] at hok; cases hok
  | ok ss => rw [generateHosts_ok_state c _ hosts ss hr]

/-- C11, as amended: after a call of `Generate` that returns a slice for an existing bucket,
the bucket holds every host with each of its measurements ticked once, by the duration
`time.Duration(scrapeIntervalSeconds) * time.Second`; the series returned are those of the
hosts as they were before the call; and that duration is `scrapeIntervalSeconds` seconds when
`-9223372036 <= scrapeIntervalSeconds <= 9223372036`. -/
theorem generate_advances {M : Type} (c : Collaborators M) (h : HostsSimulator M)
    (offsetSeconds : Int) (hosts : List (Host M)) (series : List TimeSeries)
    (hg : h.hosts.get? offsetSeconds = some hosts)
    (hok : (Generate c h offsetSeconds).1 = .ok (some series)) :
    (Generate c h offsetSeconds).2.hosts.get? offsetSeconds =
      some (hosts.map (fun host =>
        { host with SimulatedMeasurements := (host.SimulatedMeasurements.map
            (fun m => c.Tick m (secondsDuration h.scrapeIntervalSeconds))) })) ∧
    series = (bucketFields c hosts).map (FieldRead.series c) ∧
    (-9223372036 ≤ h.scrapeIntervalSeconds → h.scrapeIntervalSeconds ≤ 9223372036 →
      (Generate c h offsetSeconds).2.hosts.get? offsetSeconds =
        some (hosts.map (fun host =>
          host.TickAll c (h.scrapeIntervalSeconds * 1000000000)))) := by
  have hstate := generate_ok_state c h offsetSeconds hosts series hg hok
  refine ⟨hstate, (generate_ok c h offsetSeconds hosts series hg hok).1, ?_⟩
  intro h1 h2
  rw [hstate, secondsDuration_eq _ h1 h2]

theorem generate_advances_witness :
    samplePool.hosts.get? 0 = some sampleBucket ∧
    (Generate sampleCollaborators samplePool 0).1 = .ok (some sampleSeries) ∧
    (Generate sampleCollaborators samplePool 0).2.hosts.get? 0 =
      some (sampleBucket.map (fun host =>
        { host with SimulatedMeasurements := (host.SimulatedMeasurements.map
            (fun m => sampleCollaborators.Tick m
              (secondsDuration samplePool.scrapeIntervalSeconds))) })) ∧
    sampleSeries = (bucketFields sampleCollaborators sampleBucket).map
      (FieldRead.series sampleCollaborators) ∧
    (-9223372036 ≤ samplePool.scrapeIntervalSeconds →
      samplePool.scrapeIntervalSeconds ≤ 9223372036 →
      (Generate sampleCollaborators samplePool 0).2.hosts.get? 0 =
        some (sampleBucket.map (fun host =>
          host.TickAll sampleCollaborators (samplePool.scrapeIntervalSeconds * 1000000000)))) :=
  ⟨rfl, samplePool_generate,
    generate_advances sampleCollaborators samplePool 0 sampleBucket sampleSeries rfl
      samplePool_generate⟩

/-- The claim C11 fails as it is stated: on the pool built for one host and an interval of
`10000000000` seconds the call `Generate(0)` returns a slice, and has moved the time of the
host from `0` to `-8446744073709551616` nanoseconds, not forward by `10000000000` seconds:
the duration `time.Duration(10000000000) * time.Second` wraps at 64 bits. -/
theorem generate_advances_counterexample :
    ∃ h : HostsSimulator Point,
      NewHostsSimulator sampleCollaborators (fun _ => 0) 1 10000000000 ⟨0⟩ = .ok h ∧
      h.scrapeIntervalSeconds = 10000000000 ∧
      h.hosts.get? 0 = some [sampleHost "host_0" [cpuPoint ⟨0⟩]] ∧
      (∃ series, (Generate sampleCollaborators h 0).1 = .ok (some series)) ∧
      (Generate sampleCollaborators h 0).2.hosts.get? 0 =
        some [sampleHost "host_0" [cpuPoint ⟨-8446744073709551616⟩]] ∧
      (Generate sampleCollaborators h 0).2.hosts.get? 0 ≠
        some [sampleHost "host_0" [cpuPoint ⟨10000000000 * 1000000000⟩]] := by
  obtain ⟨pool, hpool⟩ : ∃ p : HostsSimulator Point, p =
      { hosts := tabulate (10000000000 : Int).toNat (fun k =>
          (bucketIndices (1 : Int).toNat (10000000000 : Int).toNat k).map
            (fun i => hostAt sampleCollaborators (fun _ => 0) ⟨0⟩ i
              ((i : Int).tmod 10000000000))),
        scrapeIntervalSeconds := 10000000000 } := ⟨_, rfl⟩
  have hnew : NewHostsSimulator sampleCollaborators (fun _ => 0) 1 10000000000 ⟨0⟩ = .ok pool := by
    rw [hpool]
    exact newHostsSimulator_eq sampleCollaborators (fun _ => 0) ⟨0⟩ 1 10000000000
      (by decide) (by decide)
  have hs : pool.scrapeIntervalSeconds = 10000000000 := by rw [hpool]
  have hget0 : (tabulate (10000000000 : Int).toNat (fun k =>
        (bucketIndices (1 : Int).toNat (10000000000 : Int).toNat k).map
          (fun i => hostAt sampleCollaborators (fun _ => 0) ⟨0⟩ i
            ((i : Int).tmod 10000000000)))).get? 0 =
      some [sampleHost "host_0" [cpuPoint ⟨0⟩]] := by
    rw [tabulate_get?, if_pos ⟨by decide, by decide⟩]
    rfl
  have hget : pool.hosts.get? 0 = some [sampleHost "host_0" [cpuPoint ⟨0⟩]] := by
    rw [hpool]
    dsimp only
    exact hget0
  have hsup : ∀ host ∈ [sampleHost "host_0" [cpuPoint ⟨0⟩]], ∀ m ∈ host.SimulatedMeasurements,
      (currentPoint sampleCollaborators m).supported = true := by decide
  have hok := generate_supported sampleCollaborators pool 0 _ hget hsup
  have hstate := generate_ok_state sampleCollaborators pool 0 _ _ hget hok
  rw [hs] at hstate
  have hval : List.map (fun host => Host.TickAll sampleCollaborators host
        (secondsDuration (10000000000 : Int))) [sampleHost "host_0" [cpuPoint ⟨0⟩]] =
      [sampleHost "host_0" [cpuPoint ⟨-8446744073709551616⟩]] := rfl
  have hstate1 : (Generate sampleCollaborators pool 0).2.hosts.get? 0 =
      some [sampleHost "host_0" [cpuPoint ⟨-8446744073709551616⟩]] := by
    rw [hstate]
    exact congrArg some hval
  refine ⟨pool, hnew, hs, hget, ⟨_, hok⟩, hstate1, ?_⟩
  rw [hstate1]
  simp [sampleHost, cpuPoint]

/-! ## Two calls in a row -/

theorem generate_ok_iff {M : Type} (c : Collaborators M) (h : HostsSimulator M)
    (offset : Int) (hosts : List (Host M)) (series : List TimeSeries)
    (hg : h.hosts.get? offset = some hosts) :
    (Generate c h offset).1 = .ok (some series) ↔
      (∀ host ∈ hosts, ∀ m ∈ host.SimulatedMeasurements, (currentPoint c m).supported = true) ∧
        series = (bucketFields c hosts).map (FieldRead.series c) := by
  constructor
  · intro hok
    obtain ⟨hs, hsup, hwf⟩ := generate_ok c h offset hosts series hg hok
    refine ⟨?_, hs⟩
    intro host hh m hm
    rw [point_supported_iff]
    refine ⟨hwf host hh m hm, ?_⟩
    intro f hf
    exact hsup _ ((mem_bucketFields c hosts _).mpr ⟨host, hh, m, hm, f, hf, rfl⟩)
  · rintro ⟨hsup, hs⟩
    rw [hs]
    exact generate_supported c h offset hosts hg hsup

theorem series_ne_of_timestamps {M : Type} (c : Collaborators M) (xs ys : List (FieldRead M))
    (hne : xs ≠ [])
    (hts : ∀ x ∈ xs, ∀ y ∈ ys, y.point.Timestamp.Unix ≠ x.point.Timestamp.Unix) :
    ys.map (FieldRead.series c) ≠ xs.map (FieldRead.series c) := by
  cases xs with
  | nil => exact absurd rfl hne
  | cons x xs1 =>
    cases ys with
    | nil => simp
    | cons y ys1 =>
      intro heq
      have hhead : FieldRead.series c y = FieldRead.series c x := by
        simp only [List.map_cons] at heq
        exact (List.cons.inj heq).1
      have hts1 := hts x (List.mem_cons_self _ _) y (List.mem_cons_self _ _)
      apply hts1
      have hsamples := congrArg TimeSeries.Samples hhead
      simp only [FieldRead.series, makeSeries] at hsamples
      exact congrArg Sample.Timestamp (List.cons.inj hsamples).1

theorem mem_bucketFields_ticked {M : Type} (c : Collaborators M) (d : Duration)
    (hosts : List (Host M)) (y : FieldRead M)
    (hy : y ∈ bucketFields c (hosts.map (fun host => host.TickAll c d))) :
    ∃ host ∈ hosts, ∃ m ∈ host.SimulatedMeasurements, y.point = currentPoint c (c.Tick m d) := by
  obtain ⟨host1, hh1, m1, hm1, f, _, rfl⟩ := (mem_bucketFields c _ y).mp hy
  obtain ⟨host, hh, rfl⟩ := List.mem_map.mp hh1
  simp only [Host.TickAll, List.mem_map] at hm1
  obtain ⟨m, hm, rfl⟩ := hm1
  exact ⟨host, hh, m, hm, rfl⟩

theorem unix_add_seconds (t : Time) (s : Int) (h0 : -9223372036 ≤ s) (h1 : s ≤ 9223372036) :
    (t.Add (secondsDuration s)).Unix = t.Unix + s := by
  rw [secondsDuration_eq s h0 h1]
  simp only [Time.Add, Time.Unix]
  exact Int.add_mul_ediv_right _ _ (by norm_num)

/-- C13, as amended: after a call of `Generate` that returns a slice for an existing bucket,
the bucket holds the hosts as the call ticked them, and a second call with the same offset
reads those hosts: it returns a slice exactly when their points have values of supported kinds
for all field keys, and the slice is then the series of their fields; it returns the same
as the first call exactly when these series are the series of the hosts before the tick. The two
calls return different results whenever the first slice is not empty and no field read after the
tick carries the Unix second of a field read before it; so they do when every measurement of
the bucket reports one time `t` before the call and `t` plus the duration of the tick after it,
and the duration moves the Unix second of `t`, which it does, by `scrapeIntervalSeconds`, for
`0 < scrapeIntervalSeconds <= 9223372036`. -/
theorem generate_twice {M : Type} (c : Collaborators M) (h : HostsSimulator M)
    (offsetSeconds : Int) (hosts : List (Host M)) (series1 : List TimeSeries)
    (hg : h.hosts.get? offsetSeconds = some hosts)
    (hok : (Generate c h offsetSeconds).1 = .ok (some series1)) :
    series1 = (bucketFields c hosts).map (FieldRead.series c) ∧
    (Generate c h offsetSeconds).2.hosts.get? offsetSeconds =
      some (hosts.map (fun host =>
        host.TickAll c (secondsDuration h.scrapeIntervalSeconds))) ∧
    (∀ series2 : List TimeSeries,
      (Generate c (Generate c h offsetSeconds).2 offsetSeconds).1 = .ok (some series2) ↔
        (∀ host ∈ hosts.map (fun host =>
            host.TickAll c (secondsDuration h.scrapeIntervalSeconds)),
          ∀ m ∈ host.SimulatedMeasurements, (currentPoint c m).supported = true) ∧
        series2 = (bucketFields c (hosts.map (fun host =>
          host.TickAll c (secondsDuration h.scrapeIntervalSeconds)))).map
            (FieldRead.series c)) ∧
    ((Generate c (Generate c h offsetSeconds).2 offsetSeconds).1 =
        (Generate c h offsetSeconds).1 ↔
      (∀ host ∈ hosts.map (fun host =>
          host.TickAll c (secondsDuration h.scrapeIntervalSeconds)),
        ∀ m ∈ host.SimulatedMeasurements, (currentPoint c m).supported = true) ∧
      (bucketFields c (hosts.map (fun host =>
        host.TickAll c (secondsDuration h.scrapeIntervalSeconds)))).map (FieldRead.series c) =
        (bucketFields c hosts).map (FieldRead.series c)) ∧
    (series1 ≠ [] →
      (∀ x ∈ bucketFields c hosts,
        ∀ y ∈ bucketFields c (hosts.map (fun host =>
          host.TickAll c (secondsDuration h.scrapeIntervalSeconds))),
        y.point.Timestamp.Unix ≠ x.point.Timestamp.Unix) →
      (Generate c (Generate c h offsetSeconds).2 offsetSeconds).1 ≠
        (Generate c h offsetSeconds).1) ∧
    (∀ t : Time, series1 ≠ [] →
      (∀ host ∈ hosts, ∀ m ∈ host.SimulatedMeasurements,
        (currentPoint c m).Timestamp = t ∧
        (currentPoint c (c.Tick m (secondsDuration h.scrapeIntervalSeconds))).Timestamp =
          t.Add (secondsDuration h.scrapeIntervalSeconds)) →
      (t.Add (secondsDuration h.scrapeIntervalSeconds)).Unix ≠ t.Unix →
      (Generate c (Generate c h offsetSeconds).2 offsetSeconds).1 ≠
        (Generate c h offsetSeconds).1) ∧
    (∀ t : Time, 0 < h.scrapeIntervalSeconds → h.scrapeIntervalSeconds ≤ 9223372036 →
      (t.Add (secondsDuration h.scrapeIntervalSeconds)).Unix =
        t.Unix + h.scrapeIntervalSeconds ∧
      (t.Add (secondsDuration h.scrapeIntervalSeconds)).Unix ≠ t.Unix) := by
  have hs1 := (generate_ok c h offsetSeconds hosts series1 hg hok).1
  have hstate := generate_ok_state c h offsetSeconds hosts series1 hg hok
  have hiff := fun series2 =>
    generate_ok_iff c (Generate c h offsetSeconds).2 offsetSeconds _ series2 hstate
  have heq : (Generate c (Generate c h offsetSeconds).2 offsetSeconds).1 =
        (Generate c h offsetSeconds).1 ↔
      (∀ host ∈ hosts.map (fun host =>
          host.TickAll c (secondsDuration h.scrapeIntervalSeconds)),
        ∀ m ∈ host.SimulatedMeasurements, (currentPoint c m).supported = true) ∧
      (bucketFields c (hosts.map (fun host =>
        host.TickAll c (secondsDuration h.scrapeIntervalSeconds)))).map (FieldRead.series c) =
        (bucketFields c hosts).map (FieldRead.series c) := by
    rw [hok, hiff series1, hs1]
    constructor
    · rintro ⟨ha, hb⟩
      exact ⟨ha, hb.symm⟩
    · rintro ⟨ha, hb⟩
      exact ⟨ha, hb.symm⟩
  have hne : series1 ≠ [] →
      (∀ x ∈ bucketFields c hosts,
        ∀ y ∈ bucketFields c (hosts.map (fun host =>
          host.TickAll c (secondsDuration h.scrapeIntervalSeconds))),
        y.point.Timestamp.Unix ≠ x.point.Timestamp.Unix) →
      (Generate c (Generate c h offsetSeconds).2 offsetSeconds).1 ≠
        (Generate c h offsetSeconds).1 := by
    intro hne1 hts hsame
    have hxs : bucketFields c hosts ≠ [] := by
      intro hnil
      apply hne1
      rw [hs1, hnil]
      rfl
    exact series_ne_of_timestamps c _ _ hxs hts (heq.mp hsame).2
  refine ⟨hs1, hstate, hiff, heq, hne, ?_, ?_⟩
  · intro t hne1 hlaw hmove
    apply hne hne1
    intro x hx y hy
    obtain ⟨host, hh, m, hm, f, _, rfl⟩ := (mem_bucketFields c hosts x).mp hx
    obtain ⟨host2, hh2, m2, hm2, hy2⟩ := mem_bucketFields_ticked c _ hosts y hy
    rw [hy2, (hlaw host2 hh2 m2 hm2).2]
    simp only
    rw [(hlaw host hh m hm).1]
    exact hmove
  · intro t h0 h1
    have hu := unix_add_seconds t h.scrapeIntervalSeconds (by omega) h1
    refine ⟨hu, ?_⟩
    rw [hu]
    omega

theorem generate_twice_witness :
    samplePool.hosts.get? 0 = some sampleBucket ∧
    (Generate sampleCollaborators samplePool 0).1 = .ok (some sampleSeries) ∧
    (Generate sampleCollaborators samplePool 0).2.hosts.get? 0 =
      some (sampleBucket.map (fun host =>
        host.TickAll sampleCollaborators (secondsDuration samplePool.scrapeIntervalSeconds))) ∧
    (sampleSeries.map (fun ts => ts.Samples.map Sample.Timestamp) = [[0], [0], [0], [0]]) ∧
    (∃ series2, (Generate sampleCollaborators
        (Generate sampleCollaborators samplePool 0).2 0).1 = .ok (some series2) ∧
      series2.map (fun ts => ts.Samples.map Sample.Timestamp) = [[2], [2], [2], [2]]) ∧
    (Generate sampleCollaborators (Generate sampleCollaborators samplePool 0).2 0).1 ≠
      (Generate sampleCollaborators samplePool 0).1 := by
  obtain ⟨_, hstate, hiff, _, _, hlaw, hmove⟩ :=
    generate_twice sampleCollaborators samplePool 0 sampleBucket sampleSeries rfl
      samplePool_generate
  refine ⟨rfl, samplePool_generate, hstate, rfl, ⟨_, (hiff _).mpr ⟨by decide, rfl⟩, rfl⟩, ?_⟩
  refine hlaw ⟨0⟩ (by decide) ?_ (hmove ⟨0⟩ (by decide) (by decide)).2
  intro host hh m hm
  simp only [sampleBucket, List.mem_cons, List.mem_singleton, List.not_mem_nil, or_false] at hh
  rcases hh with rfl | rfl
  · simp only [sampleHost, List.mem_singleton] at hm
    subst hm
    exact ⟨rfl, rfl⟩
  · simp only [sampleHost, List.mem_singleton] at hm
    subst hm
    exact ⟨rfl, rfl⟩

/-- The claim C13 fails as it is stated, in both of its parts. On the pool built for four hosts
and an interval of two seconds, whose measurements report the constant fields `usage_user = 42`
and `load1 = 0.5`, two calls of `Generate(0)` in a row return series with the same sample
values: the two results differ in the timestamps only. On the same pool with measurements whose
tick changes nothing, the bucket of the offset `0` has two hosts with one measurement of two
fields each, and the two calls return the same result. -/
theorem generate_twice_counterexample :
    (∃ (h : HostsSimulator Point) (series1 series2 : List TimeSeries),
      NewHostsSimulator sampleCollaborators (fun _ => 0) 4 2 ⟨0⟩ = .ok h ∧
      (h.hosts.get? 0).map List.length = some 2 ∧
      (Generate sampleCollaborators h 0).1 = .ok (some series1) ∧
      (Generate sampleCollaborators (Generate sampleCollaborators h 0).2 0).1 =
        .ok (some series2) ∧
      series1.map (fun ts => ts.Samples.map Sample.Value) =
        [[.finite 42], [.finite (1 / 2)], [.finite 42], [.finite (1 / 2)]] ∧
      series2.map (fun ts => ts.Samples.map Sample.Value) =
        series1.map (fun ts => ts.Samples.map Sample.Value) ∧
      series1.map (fun ts => ts.Samples.map Sample.Timestamp) = [[0], [0], [0], [0]] ∧
      series2.map (fun ts => ts.Samples.map Sample.Timestamp) = [[2], [2], [2], [2]]) ∧
    (∃ (h : HostsSimulator Point) (series1 : List TimeSeries),
      NewHostsSimulator frozenCollaborators (fun _ => 0) 4 2 ⟨0⟩ = .ok h ∧
      0 < h.scrapeIntervalSeconds ∧
      (h.hosts.get? 0).map (fun hosts => hosts.map (fun host =>
        host.SimulatedMeasurements.map (fun m =>
          (currentPoint frozenCollaborators m).FieldKeys))) =
        some [[["usage_user", "load1"]], [["usage_user", "load1"]]] ∧
      (Generate frozenCollaborators h 0).1 = .ok (some series1) ∧
      series1.length = 4 ∧
      (Generate frozenCollaborators (Generate frozenCollaborators h 0).2 0).1 =
        (Generate frozenCollaborators h 0).1) :=
  ⟨⟨_, _, _, rfl, rfl, rfl, rfl, rfl, rfl, rfl, rfl⟩,
    ⟨_, _, rfl, by decide, rfl, rfl, rfl, rfl⟩⟩

/-! ## The order of the series -/

theorem bucketFields_map_series {M : Type} (c : Collaborators M) (hosts : List (Host M)) :
    (bucketFields c hosts).map (FieldRead.series c) =
      hosts.flatMap (fun host =>
        host.SimulatedMeasurements.flatMap (fun m =>
          ((currentPoint c m).FieldKeys.zip (currentPoint c m).FieldValues).map (fun f =>
            makeSeries c host (currentPoint c m) f.1 f.2.toFloat64))) := by
  simp only [bucketFields, hostFields, List.map_flatMap, List.map_map, Point.fields,
    Function.comp_def, FieldRead.series]

theorem bucketIndices_pairwise (hostCount n k : Nat) :
    (bucketIndices hostCount n k).Pairwise (fun i j => i < j) :=
  List.Pairwise.filter _ (List.pairwise_lt_range hostCount)

/-- C15: when `Generate` returns a slice for an existing bucket, the slice is the concatenation,
over the hosts in the order of the bucket, over the measurements of each host in their order
and over the field keys of the point in their order, of one series per field; in a pool that
the constructor returns, each bucket holds its hosts in the order of increasing host index; the
call is a function of the pool and the offset, with this value: the slice above, and the pool
with the hosts of the bucket ticked; and the slice and the bucket it leaves depend on the pool
through the bucket and the interval only: a call on any pool that holds the same hosts under
some offset returns the same slice, and leaves the same bucket when the intervals agree. -/
theorem generate_order {M : Type} (c : Collaborators M) (h : HostsSimulator M)
    (offsetSeconds : Int) (hosts : List (Host M)) (series : List TimeSeries)
    (hg : h.hosts.get? offsetSeconds = some hosts)
    (hok : (Generate c h offsetSeconds).1 = .ok (some series)) :
    series =
      hosts.flatMap (fun host =>
        host.SimulatedMeasurements.flatMap (fun m =>
          ((currentPoint c m).FieldKeys.zip (currentPoint c m).FieldValues).map (fun f =>
            makeSeries c host (currentPoint c m) f.1 f.2.toFloat64))) ∧
    (∀ (rnd : Nat → Int) (start : Time) (hostCount scrapeIntervalSeconds : Int)
        (pool : HostsSimulator M), 0 < scrapeIntervalSeconds →
      NewHostsSimulator c rnd hostCount scrapeIntervalSeconds start = .ok pool →
      ∃ idx : HostMap Nat,
        indexBuckets hostCount scrapeIntervalSeconds = .ok idx ∧
        pool.hosts = idx.map (fun b => (b.1, b.2.map (fun i =>
          hostAt c rnd start i ((i : Int).tmod scrapeIntervalSeconds)))) ∧
        ∀ b ∈ idx, b.2.Pairwise (fun i j => i < j)) ∧
    Generate c h offsetSeconds =
      (.ok (some (hosts.flatMap (fun host =>
        host.SimulatedMeasurements.flatMap (fun m =>
          ((currentPoint c m).FieldKeys.zip (currentPoint c m).FieldValues).map (fun f =>
            makeSeries c host (currentPoint c m) f.1 f.2.toFloat64))))),
        { hosts := h.hosts.set offsetSeconds (hosts.map (fun host =>
            host.TickAll c (secondsDuration h.scrapeIntervalSeconds))),
          scrapeIntervalSeconds := h.scrapeIntervalSeconds }) ∧
    (∀ (h2 : HostsSimulator M) (offset2 : Int), h2.hosts.get? offset2 = some hosts →
      (Generate c h2 offset2).1 = .ok (some series) ∧
      (h2.scrapeIntervalSeconds = h.scrapeIntervalSeconds →
        (Generate c h2 offset2).2.hosts.get? offset2 =
          (Generate c h offsetSeconds).2.hosts.get? offsetSeconds)) := by
  have hs1 := (generate_ok c h offsetSeconds hosts series hg hok).1
  have hsup := ((generate_ok_iff c h offsetSeconds hosts series hg).mp hok).1
  have hser : series = hosts.flatMap (fun host =>
      host.SimulatedMeasurements.flatMap (fun m =>
        ((currentPoint c m).FieldKeys.zip (currentPoint c m).FieldValues).map (fun f =>
          makeSeries c host (currentPoint c m) f.1 f.2.toFloat64))) := by
    rw [hs1, bucketFields_map_series]
  refine ⟨hser, ?_, ?_, ?_⟩
  · intro rnd start hostCount s pool hs hnew
    have hcap := newHostsSimulator_cap c rnd start hostCount s hs pool hnew
    rw [newHostsSimulator_eq c rnd start _ _ hs hcap] at hnew
    have hpool : pool = _ := (Except.ok.inj hnew).symm
    refine ⟨_, indexBuckets_eq _ _ hs hcap, ?_, ?_⟩
    · rw [hpool]
      simp [tabulate, tabulateOn]
    · intro b hb
      simp only [tabulate, tabulateOn, List.mem_map, List.mem_range] at hb
      obtain ⟨k, _, rfl⟩ := hb
      exact bucketIndices_pairwise _ _ _
  · have hfst : (Generate c h offsetSeconds).1 = .ok (some (hosts.flatMap (fun host =>
        host.SimulatedMeasurements.flatMap (fun m =>
          ((currentPoint c m).FieldKeys.zip (currentPoint c m).FieldValues).map (fun f =>
            makeSeries c host (currentPoint c m) f.1 f.2.toFloat64))))) := by
      rw [hok, hser]
    have hsnd : (Generate c h offsetSeconds).2 =
        { hosts := h.hosts.set offsetSeconds (hosts.map (fun host =>
            host.TickAll c (secondsDuration h.scrapeIntervalSeconds))),
          scrapeIntervalSeconds := h.scrapeIntervalSeconds } := by
      rw [generate_of_some c h offsetSeconds hosts hg] at hok ⊢
      simp only at hok ⊢
      cases hr : (generateHosts c (secondsDuration h.scrapeIntervalSeconds) hosts).1 with
      | error e => rw [hr] at hok; cases hok
      | ok ss => rw [generateHosts_ok_state c _ hosts ss hr]
    exact Prod.ext hfst hsnd
  · intro h2 offset2 hg2
    have hok2 : (Generate c h2 offset2).1 = .ok (some series) := by
      rw [hs1]
      exact generate_supported c h2 offset2 hosts hg2 hsup
    refine ⟨hok2, ?_⟩
    intro hint
    rw [generate_ok_state c h2 offset2 hosts series hg2 hok2,
      generate_ok_state c h offsetSeconds hosts series hg hok, hint]

theorem generate_order_witness :
    samplePool.hosts.get? 0 = some sampleBucket ∧
    (Generate sampleCollaborators samplePool 0).1 = .ok (some sampleSeries) ∧
    sampleSeries =
      sampleBucket.flatMap (fun host =>
        host.SimulatedMeasurements.flatMap (fun m =>
          ((currentPoint sampleCollaborators m).FieldKeys.zip
            (currentPoint sampleCollaborators m).FieldValues).map (fun f =>
              makeSeries sampleCollaborators host (currentPoint sampleCollaborators m)
                f.1 f.2.toFloat64))) ∧
    sampleSeries.map (fun ts => (ts.Labels.map Label.Value).take 1 ++
        (ts.Labels.map Label.Value).drop 10) =
      [["host_0", "usage_user", "cpu"], ["host_0", "load1", "cpu"],
        ["host_2", "usage_user", "cpu"], ["host_2", "load1", "cpu"]] ∧
    (∃ idx : HostMap Nat, indexBuckets 4 2 = .ok idx ∧ idx = [(0, [0, 2]), (1, [1, 3])] ∧
      ∀ b ∈ idx, b.2.Pairwise (fun i j => i < j)) ∧
    (Generate sampleCollaborators samplePool 0).2 =
      { hosts := [(0, [sampleHost "host_0" [cpuPoint ⟨2000000000⟩],
          sampleHost "host_2" [cpuPoint ⟨2000000000⟩]]),
          (1, [sampleHost "host_1" [cpuPoint ⟨1000000000⟩]])],
        scrapeIntervalSeconds := 2 } ∧
    (Generate sampleCollaborators
      { hosts := [(7, sampleBucket)], scrapeIntervalSeconds := 5 } 7).1 =
        .ok (some sampleSeries) := by
  have hall := generate_order sampleCollaborators samplePool 0 sampleBucket sampleSeries rfl
    samplePool_generate
  obtain ⟨h1, h2, h3, h4⟩ := hall
  obtain ⟨idx, hidx, _, hpw⟩ := h2 (fun _ => 0) ⟨0⟩ 4 2 _ (by decide) rfl
  refine ⟨rfl, samplePool_generate, h1, rfl, ⟨idx, hidx, ?_, hpw⟩, ?_,
    (h4 { hosts := [(7, sampleBucket)], scrapeIntervalSeconds := 5 } 7 rfl).1⟩
  · exact (Except.ok.inj hidx).symm
  · rw [h3]
    rfl

/-! ## The initial time of a host -/

theorem range_filter_eq (hostCount k : Nat) (hk : k < hostCount) :
    (List.range hostCount).filter (fun i => i = k) = [k] := by
  induction hostCount with
  | zero => omega
  | succ n ih =>
    rw [List.range_succ, List.filter_append]
    by_cases h : k < n
    · have hne : ¬ n = k := by omega
      rw [ih h]
      simp [hne]
    · have hkn : k = n := by omega
      subst hkn
      have hnil : (List.range k).filter (fun i => i = k) = [] := by
        rw [List.filter_eq_nil_iff]
        intro i hi
        have := List.mem_range.mp hi
        simp
        omega
      rw [hnil]
      simp

theorem bucketIndices_small (hostCount n k : Nat) (hk : k < hostCount) (hn : hostCount ≤ n) :
    bucketIndices hostCount n k = [k] := by
  rw [← range_filter_eq hostCount k hk, bucketIndices]
  apply List.filter_congr
  intro i hi
  have hi1 := List.mem_range.mp hi
  rw [Nat.mod_eq_of_lt (by omega)]

theorem mem_bucketIndices (hostCount n k j : Nat) :
    j ∈ bucketIndices hostCount n k ↔ j < hostCount ∧ j % n = k := by
  simp [bucketIndices]

/-- C14, as amended: for `hostCount >= 0` and `scrapeIntervalSeconds > 0` whose bucket capacity
`hostCount / scrapeIntervalSeconds + 1` does not exceed the largest `int`, 9223372036854775807,
the constructor builds the host of index `j` with the start time
`start.Add(time.Duration(j mod scrapeIntervalSeconds) * time.Second)`; the hosts of the bucket
keyed `k` all have the offset `k`, so they share one start time; and for offsets up to
`9223372036` that time is `start` plus the offset in seconds, so that the start times of two
such buckets differ by the difference of their offsets in seconds. -/
theorem newHostsSimulator_initial_time {M : Type} (c : Collaborators M) (rnd : Nat → Int)
    (start : Time) (hostCount scrapeIntervalSeconds : Int) (hc : 0 ≤ hostCount)
    (hs : 0 < scrapeIntervalSeconds)
    (hmax : hostCount.tdiv scrapeIntervalSeconds + 1 ≤ 9223372036854775807) :
    ∃ (h : HostsSimulator M) (idx : HostMap Nat),
      NewHostsSimulator c rnd hostCount scrapeIntervalSeconds start = .ok h ∧
      indexBuckets hostCount scrapeIntervalSeconds = .ok idx ∧
      h.hosts = idx.map (fun b => (b.1, b.2.map (fun j =>
        c.NewHost (rnd (2 * j)) (rnd (2 * j + 1))
          (start.Add (secondsDuration ((j : Int).tmod scrapeIntervalSeconds)))))) ∧
      (∀ b ∈ idx, ∀ j ∈ b.2, (j : Int).tmod scrapeIntervalSeconds = b.1) ∧
      (∀ k : Int, 0 ≤ k → k ≤ 9223372036 →
        start.Add (secondsDuration k) = ⟨start.nanos + k * 1000000000⟩) ∧
      (∀ k1 k2 : Int, 0 ≤ k1 → k1 ≤ 9223372036 → 0 ≤ k2 → k2 ≤ 9223372036 →
        (start.Add (secondsDuration k2)).nanos - (start.Add (secondsDuration k1)).nanos =
          (k2 - k1) * 1000000000) := by
  have hcap := cap_nonneg hostCount scrapeIntervalSeconds hc hs hmax
  have hn : 0 < scrapeIntervalSeconds.toNat := by omega
  have hsn : ((scrapeIntervalSeconds.toNat : Nat) : Int) = scrapeIntervalSeconds :=
    Int.toNat_of_nonneg hs.le
  refine ⟨_, _, newHostsSimulator_eq c rnd start _ _ hs hcap, indexBuckets_eq _ _ hs hcap,
    ?_, ?_, ?_, ?_⟩
  · simp [tabulate, tabulateOn, hostAt]
  · intro b hb j hj
    simp only [tabulate, tabulateOn, List.mem_map, List.mem_range] at hb
    obtain ⟨k, _, rfl⟩ := hb
    simp only at hj ⊢
    have := ((mem_bucketIndices _ _ _ _).mp hj).2
    rw [← this, Int.ofNat_tmod, hsn]
  · intro k h0 h1
    rw [secondsDuration_eq k (by omega) h1]
    rfl
  · intro k1 k2 h1 h2 h3 h4
    rw [secondsDuration_eq k1 (by omega) h2, secondsDuration_eq k2 (by omega) h4]
    simp only [Time.Add]
    ring

theorem newHostsSimulator_initial_time_witness :
    (0 : Int) ≤ 4 ∧ (0 : Int) < 2 ∧ (4 : Int).tdiv 2 + 1 ≤ 9223372036854775807 ∧
    ∃ (h : HostsSimulator Point) (idx : HostMap Nat),
      NewHostsSimulator sampleCollaborators (fun _ => 0) 4 2 ⟨0⟩ = .ok h ∧
      indexBuckets 4 2 = .ok idx ∧
      h.hosts = idx.map (fun b => (b.1, b.2.map (fun (j : Nat) =>
        sampleCollaborators.NewHost 0 0
          ((⟨0⟩ : Time).Add (secondsDuration ((j : Int).tmod 2)))))) ∧
      (∀ b ∈ idx, ∀ j ∈ b.2, (j : Int).tmod 2 = b.1) ∧
      (∀ k : Int, 0 ≤ k → k ≤ 9223372036 →
        (⟨0⟩ : Time).Add (secondsDuration k) = ⟨(⟨0⟩ : Time).nanos + k * 1000000000⟩) ∧
      (∀ k1 k2 : Int, 0 ≤ k1 → k1 ≤ 9223372036 → 0 ≤ k2 → k2 ≤ 9223372036 →
        ((⟨0⟩ : Time).Add (secondsDuration k2)).nanos -
            ((⟨0⟩ : Time).Add (secondsDuration k1)).nanos =
          (k2 - k1) * 1000000000) :=
  ⟨by decide, by decide, by decide,
    newHostsSimulator_initial_time sampleCollaborators (fun _ => 0) ⟨0⟩ 4 2
      (by decide) (by decide) (by decide)⟩

/-- The claim C14 fails as it is stated, at two inputs. For `9223372038` hosts and an interval
of `9223372038` seconds the host of index `9223372037` is built in the bucket of the offset
`9223372037` with the start time `-9223372036709551616` nanoseconds, before `start = 0` and
not `9223372037` seconds after it: the duration `time.Duration(9223372037) * time.Second`
wraps at 64 bits. For `9223372036854775807` hosts and an interval of one second the capacity
`hostCount/1 + 1` wraps to a negative `int` and the constructor panics in `make`: it constructs
no host. -/
theorem newHostsSimulator_initial_time_counterexample :
    (NewHostsSimulator sampleCollaborators (fun _ => 0) 9223372036854775807 1 ⟨0⟩ =
      .error .makesliceCap) ∧
    ∃ h : HostsSimulator Point,
      NewHostsSimulator sampleCollaborators (fun _ => 0) 9223372038 9223372038 ⟨0⟩ = .ok h ∧
      (9223372037 : Int).tmod 9223372038 = 9223372037 ∧
      h.hosts.get? 9223372037 =
        some [sampleCollaborators.NewHost 0 0
          ((⟨0⟩ : Time).Add (secondsDuration ((9223372037 : Int).tmod 9223372038)))] ∧
      (⟨0⟩ : Time).Add (secondsDuration ((9223372037 : Int).tmod 9223372038)) =
        ⟨-9223372036709551616⟩ ∧
      (⟨0⟩ : Time).Add (secondsDuration ((9223372037 : Int).tmod 9223372038)) ≠
        ⟨0 + 9223372037 * 1000000000⟩ := by
  obtain ⟨pool, hpool⟩ : ∃ p : HostsSimulator Point, p =
      { hosts := tabulate (9223372038 : Int).toNat (fun k =>
          (bucketIndices (9223372038 : Int).toNat (9223372038 : Int).toNat k).map
            (fun i => hostAt sampleCollaborators (fun _ => 0) ⟨0⟩ i
              ((i : Int).tmod 9223372038))),
        scrapeIntervalSeconds := 9223372038 } := ⟨_, rfl⟩
  have hnew : NewHostsSimulator sampleCollaborators (fun _ => 0) 9223372038 9223372038 ⟨0⟩ =
      .ok pool := by
    rw [hpool]
    exact newHostsSimulator_eq sampleCollaborators (fun _ => 0) ⟨0⟩ 9223372038 9223372038
      (by decide) (by decide)
  have hget0 : (tabulate (9223372038 : Int).toNat (fun k =>
        (bucketIndices (9223372038 : Int).toNat (9223372038 : Int).toNat k).map
          (fun i => hostAt sampleCollaborators (fun _ => 0) ⟨0⟩ i
            ((i : Int).tmod 9223372038)))).get? 9223372037 =
      some [sampleCollaborators.NewHost 0 0
          ((⟨0⟩ : Time).Add (secondsDuration ((9223372037 : Int).tmod 9223372038)))] := by
    rw [tabulate_get?, if_pos ⟨by decide, by decide⟩,
      bucketIndices_small _ _ _ (by decide) (by decide)]
    rfl
  have hget : pool.hosts.get? 9223372037 =
      some [sampleCollaborators.NewHost 0 0
          ((⟨0⟩ : Time).Add (secondsDuration ((9223372037 : Int).tmod 9223372038)))] := by
    rw [hpool]
    dsimp only
    exact hget0
  exact ⟨newHostsSimulator_makeslice sampleCollaborators (fun _ => 0) ⟨0⟩
    9223372036854775807 1 (by decide) (by decide), pool, hnew, by decide, hget, by decide,
    by decide⟩

/-! ## The lookup of a field value -/

theorem pointSeries_general {M : Type} (c : Collaborators M) (host : Host M) (p : Point)
    (keys : List String) (i : Nat) (hi : i ≤ p.FieldValues.length) :
    pointSeries c host p i keys =
      match readResult c ((keys.zip (p.FieldValues.drop i)).map (fun f =>
        ({ host := host, point := p, fieldName := f.1, value := f.2 } : FieldRead M))) with
      | .error e => .error e
      | .ok series =>
        if keys.length + i ≤ p.FieldValues.length then .ok series
        else .error (.indexOutOfRange p.FieldValues.length p.FieldValues.length) := by
  induction keys generalizing i with
  | nil =>
    simp only [pointSeries, List.zip_nil_left, List.map_nil, readResult_nil, List.length_nil,
      Nat.zero_add, hi, if_true]
  | cons k rest ih =>
    by_cases hlt : i < p.FieldValues.length
    · rw [List.drop_eq_getElem_cons hlt, List.zip_cons_cons, List.map_cons, readResult_cons]
      simp only [pointSeries, List.getElem?_eq_getElem hlt]
      cases fieldValueToFloat k p.FieldValues[i] with
      | error e => rfl
      | ok val =>
        simp only
        rw [ih (i + 1) hlt]
        cases readResult c ((rest.zip (p.FieldValues.drop (i + 1))).map (fun f =>
          ({ host := host, point := p, fieldName := f.1, value := f.2 } : FieldRead M))) with
        | error e => rfl
        | ok series =>
          simp only [List.length_cons]
          by_cases hle : rest.length + (i + 1) ≤ p.FieldValues.length
          · have hle2 : rest.length + 1 + i ≤ p.FieldValues.length := by omega
            rw [if_pos hle, if_pos hle2]
          · have hle2 : ¬ rest.length + 1 + i ≤ p.FieldValues.length := by omega
            rw [if_neg hle, if_neg hle2]
    · have hie : i = p.FieldValues.length := by omega
      have hnot : ¬ (k :: rest).length + i ≤ p.FieldValues.length := by
        simp only [List.length_cons]
        omega
      rw [List.drop_of_length_le (by omega), List.zip_nil_right, List.map_nil, readResult_nil]
      simp only [pointSeries, List.getElem?_eq_none (Nat.le_of_not_lt hlt), if_neg hnot]
      rw [← hie]

theorem pointSeries_take {M : Type} (c : Collaborators M) (host : Host M) (p : Point)
    (keys : List String) (i n : Nat) (hn : keys.length + i ≤ n)
    (hlen : keys.length + i ≤ p.FieldValues.length) :
    pointSeries c host p i keys =
      pointSeries c host { p with FieldValues := p.FieldValues.take n } i keys := by
  induction keys generalizing i with
  | nil => rfl
  | cons k rest ih =>
    simp only [List.length_cons] at hn hlen
    have hi : i < p.FieldValues.length := by omega
    have hi2 : i < (p.FieldValues.take n).length := by
      rw [List.length_take]
      omega
    have hget : (p.FieldValues.take n)[i] = p.FieldValues[i] := by
      rw [List.getElem_take]
    simp only [pointSeries, List.getElem?_eq_getElem hi, List.getElem?_eq_getElem hi2, hget]
    cases fieldValueToFloat k p.FieldValues[i] with
    | error e => rfl
    | ok val =>
      simp only
      rw [← ih (i + 1) (by omega) (by omega)]
      rfl

theorem generate_singleton {M : Type} (c : Collaborators M) (h : HostsSimulator M)
    (offset : Int) (host : Host M) (m : M) (hg : h.hosts.get? offset = some [host])
    (hm : host.SimulatedMeasurements = [m]) :
    (Generate c h offset).1 =
      (pointSeries c host (currentPoint c m) 0 (currentPoint c m).FieldKeys).map some := by
  rw [generate_of_some c h offset [host] hg]
  simp only [generateHosts, hm, hostSeries]
  cases pointSeries c host (currentPoint c m) 0 (currentPoint c m).FieldKeys with
  | error e => rfl
  | ok series => simp [Except.map]

theorem readResult_error_panic {M : Type} (c : Collaborators M) (xs : List (FieldRead M))
    (e : Fault) (h : readResult c xs = .error e) : ∃ msg, e = .panic msg := by
  unfold readResult at h
  cases hf : xs.find? (fun x => !x.value.supported) with
  | none => rw [hf] at h; cases h
  | some x =>
    rw [hf] at h
    exact ⟨_, (Except.error.inj h).symm⟩

theorem pointSeries_zero {M : Type} (c : Collaborators M) (host : Host M) (p : Point) :
    pointSeries c host p 0 p.FieldKeys =
      match readResult c (p.fields.map (fun f =>
        ({ host := host, point := p, fieldName := f.1, value := f.2 } : FieldRead M))) with
      | .error e => .error e
      | .ok series =>
        if p.FieldKeys.length ≤ p.FieldValues.length then .ok series
        else .error (.indexOutOfRange p.FieldValues.length p.FieldValues.length) := by
  have := pointSeries_general c host p p.FieldKeys 0 (Nat.zero_le _)
  simpa only [List.drop_zero, Nat.add_zero, Point.fields] using this

/-- C17, as amended: the loop over the field keys of a point reads the value at the index of
each key. When the point has at least as many values as keys, no index is out of range, the
loop completes exactly when the values at the key positions have supported kinds, it then
appends as many series as there are keys, and values beyond the keys are not read. When the
point has fewer values than keys the loop never completes: it panics with an index out of
range, at the index that is the number of values, when all values have supported kinds, and
with the message of the first unsupported field otherwise. For a bucket of one host with one
measurement the outcome of `Generate` is the outcome of this loop. -/
theorem generate_field_lookup {M : Type} (c : Collaborators M) (host : Host M) (p : Point) :
    (p.FieldKeys.length ≤ p.FieldValues.length →
      (∀ i len : Nat, pointSeries c host p 0 p.FieldKeys ≠ .error (.indexOutOfRange i len)) ∧
      ((∃ series, pointSeries c host p 0 p.FieldKeys = .ok series) ↔
        ∀ f ∈ p.fields, f.2.supported = true) ∧
      (∀ series, pointSeries c host p 0 p.FieldKeys = .ok series →
        series.length = p.FieldKeys.length) ∧
      pointSeries c host p 0 p.FieldKeys =
        pointSeries c host { p with FieldValues := p.FieldValues.take p.FieldKeys.length } 0
          p.FieldKeys) ∧
    (p.FieldValues.length < p.FieldKeys.length →
      (∀ series, pointSeries c host p 0 p.FieldKeys ≠ .ok series) ∧
      ((∀ v ∈ p.FieldValues, v.supported = true) →
        pointSeries c host p 0 p.FieldKeys =
          .error (.indexOutOfRange p.FieldValues.length p.FieldValues.length)) ∧
      (∀ f, p.fields.find? (fun f => !f.2.supported) = some f →
        ∃ typeName, f.2 = .other typeName ∧
          pointSeries c host p 0 p.FieldKeys =
            .error (.panic (panicMessage f.1 typeName)))) ∧
    (∀ (h : HostsSimulator M) (offsetSeconds : Int) (m : M),
      h.hosts.get? offsetSeconds = some [host] → host.SimulatedMeasurements = [m] →
      currentPoint c m = p →
      (Generate c h offsetSeconds).1 = (pointSeries c host p 0 p.FieldKeys).map some) := by
  have hz := pointSeries_zero c host p
  have hsupp : (∀ f ∈ p.fields, f.2.supported = true) →
      ∀ x ∈ p.fields.map (fun f =>
        ({ host := host, point := p, fieldName := f.1, value := f.2 } : FieldRead M)),
        x.value.supported = true := by
    intro hall x hx
    obtain ⟨f, hf, rfl⟩ := List.mem_map.mp hx
    exact hall f hf
  refine ⟨?_, ?_, ?_⟩
  · intro hle
    simp only [hle, if_true] at hz
    refine ⟨?_, ?_, ?_, ?_⟩
    · intro i len hc
      rw [hz] at hc
      cases hr : readResult c (p.fields.map (fun f =>
          ({ host := host, point := p, fieldName := f.1, value := f.2 } : FieldRead M))) with
      | error e =>
        rw [hr] at hc
        obtain ⟨msg, hmsg⟩ := readResult_error_panic c _ e hr
        rw [hmsg] at hc
        cases hc
      | ok series => rw [hr] at hc; cases hc
    · constructor
      · rintro ⟨series, hs⟩
        rw [hz] at hs
        cases hr : readResult c (p.fields.map (fun f =>
            ({ host := host, point := p, fieldName := f.1, value := f.2 } : FieldRead M))) with
        | error e => rw [hr] at hs; cases hs
        | ok ss =>
          intro f hf
          exact (readResult_ok c _ ss hr).1 _ (List.mem_map.mpr ⟨f, hf, rfl⟩)
      · intro hall
        rw [hz, readResult_of_supported c _ (hsupp hall)]
        exact ⟨_, rfl⟩
    · intro series hs
      rw [hz] at hs
      cases hr : readResult c (p.fields.map (fun f =>
          ({ host := host, point := p, fieldName := f.1, value := f.2 } : FieldRead M))) with
      | error e => rw [hr] at hs; cases hs
      | ok ss =>
        rw [hr] at hs
        have hss : ss = series := Except.ok.inj hs
        rw [← hss, (readResult_ok c _ ss hr).2]
        simp only [List.length_map, Point.fields, List.length_zip]
        exact Nat.min_eq_left hle
    · exact pointSeries_take c host p p.FieldKeys 0 _ (le_refl _) hle
  · intro hlt
    have hnle : ¬ p.FieldKeys.length ≤ p.FieldValues.length := by omega
    simp only [hnle, if_false] at hz
    refine ⟨?_, ?_, ?_⟩
    · intro series hs
      rw [hz] at hs
      cases hr : readResult c (p.fields.map (fun f =>
          ({ host := host, point := p, fieldName := f.1, value := f.2 } : FieldRead M))) with
      | error e => rw [hr] at hs; cases hs
      | ok ss => rw [hr] at hs; cases hs
    · intro hall
      have hall2 : ∀ f ∈ p.fields, f.2.supported = true := by
        intro f hf
        exact hall f.2 (List.of_mem_zip (show (f.1, f.2) ∈ p.FieldKeys.zip p.FieldValues from hf)).2
      rw [hz, readResult_of_supported c _ (hsupp hall2)]
    · intro f hf
      have hfind : (p.fields.map (fun f =>
          ({ host := host, point := p, fieldName := f.1, value := f.2 } : FieldRead M))).find?
            (fun x => !x.value.supported) =
          some { host := host, point := p, fieldName := f.1, value := f.2 } := by
        rw [List.find?_map]
        simp only [Function.comp_def]
        rw [hf]
        rfl
      obtain ⟨t, ht, hr⟩ := readResult_of_find c _ _ hfind
      exact ⟨t, ht, by rw [hz, hr]⟩
  · intro h offsetSeconds m hg hm hp
    rw [← hp]
    exact generate_singleton c h offsetSeconds host m hg hm

theorem generate_field_lookup_witness :
    (shortPoint ⟨0⟩).FieldValues.length < (shortPoint ⟨0⟩).FieldKeys.length ∧
    (∀ v ∈ (shortPoint ⟨0⟩).FieldValues, v.supported = true) ∧
    pointSeries shortCollaborators (sampleHost "host_0" [shortPoint ⟨0⟩]) (shortPoint ⟨0⟩) 0
        (shortPoint ⟨0⟩).FieldKeys =
      .error (.indexOutOfRange (shortPoint ⟨0⟩).FieldValues.length
        (shortPoint ⟨0⟩).FieldValues.length) ∧
    (Generate shortCollaborators shortPool 0).1 = .error (.indexOutOfRange 1 1) ∧
    (longPoint ⟨0⟩).FieldKeys.length ≤ (longPoint ⟨0⟩).FieldValues.length ∧
    (∀ series,
      pointSeries sampleCollaborators (sampleHost "host_0" [longPoint ⟨0⟩]) (longPoint ⟨0⟩) 0
        (longPoint ⟨0⟩).FieldKeys = .ok series → series.length = 1) ∧
    (∃ series,
      pointSeries sampleCollaborators (sampleHost "host_0" [longPoint ⟨0⟩]) (longPoint ⟨0⟩) 0
        (longPoint ⟨0⟩).FieldKeys = .ok series) :=
  ⟨by decide, by decide,
    ((generate_field_lookup shortCollaborators (sampleHost "host_0" [shortPoint ⟨0⟩])
      (shortPoint ⟨0⟩)).2.1 (by decide)).2.1 (by decide),
    rfl, by decide,
    ((generate_field_lookup sampleCollaborators (sampleHost "host_0" [longPoint ⟨0⟩])
      (longPoint ⟨0⟩)).1 (by decide)).2.2.1,
    ((generate_field_lookup sampleCollaborators (sampleHost "host_0" [longPoint ⟨0⟩])
      (longPoint ⟨0⟩)).1 (by decide)).2.1.mpr (by decide)⟩

/-- The claim C17 fails as it is stated: the point of the one host of the first pool has two
field keys and a single value, a string; `Generate` panics with the message of that field
and not with an index out of range. The point of the second pool has two keys and two
values, one of them a string; `Generate` panics and no series is emitted for the point. -/
theorem generate_field_lookup_counterexample :
    NewHostsSimulator shortStringCollaborators (fun _ => 0) 1 1 ⟨0⟩ = .ok shortStringPool ∧
    (shortStringPoint ⟨0⟩).FieldValues.length < (shortStringPoint ⟨0⟩).FieldKeys.length ∧
    (Generate shortStringCollaborators shortStringPool 0).1 =
      .error (.panic "Cannot field hostname with value type: string with ") ∧
    (∀ i len : Nat, (Generate shortStringCollaborators shortStringPool 0).1 ≠
      .error (.indexOutOfRange i len)) ∧
    NewHostsSimulator stringCollaborators (fun _ => 0) 1 1 ⟨0⟩ = .ok stringPool ∧
    (stringPoint ⟨0⟩).FieldKeys.length = (stringPoint ⟨0⟩).FieldValues.length ∧
    (Generate stringCollaborators stringPool 0).1 =
      .error (.panic "Cannot field hostname with value type: string with ") := by
  refine ⟨rfl, by decide, rfl, ?_, rfl, rfl, rfl⟩
  intro i len hc
  have h2 : (Generate shortStringCollaborators shortStringPool 0).1 =
      .error (.panic "Cannot field hostname with value type: string with ") := rfl
  rw [h2] at hc
  cases hc

/-! ## A negative interval -/

theorem placeHosts_nil_eq {α : Type} (mk : Nat → Int → α) (hostCount s : Int) (n : Nat)
    (hn : 0 < n) (hs : s ≠ 0) (hmod : ∀ i : Nat, (i : Int).tmod s = ((i % n : Nat) : Int)) :
    placeHosts mk hostCount s [] =
      .ok (tabulate (min hostCount.toNat n) (fun k =>
        (bucketIndices hostCount.toNat n k).map (fun i => mk i ((i : Int).tmod s)))) := by
  unfold placeHosts
  simp only [hs, if_false]
  generalize hostCount.toNat = j
  induction j with
  | zero =>
    show Except.ok _ = _
    rw [Nat.zero_min]
    rfl
  | succ j ih =>
    rw [List.range_succ, List.foldlM_append, ih]
    show Except.ok (HostMap.set _ _ _) = _
    have hlt : j % n < n := Nat.mod_lt _ hn
    rw [hmod j]
    by_cases hj : j < n
    · have hjn : j % n = j := Nat.mod_eq_of_lt hj
      have hmin : min j n = j := Nat.min_eq_left hj.le
      have hmin1 : min (j + 1) n = j + 1 := Nat.min_eq_left hj
      rw [hjn, hmin, hmin1]
      have hget : (tabulate j (fun k =>
          (bucketIndices j n k).map (fun i => mk i ((i : Int).tmod s)))).get? (j : Int) = none := by
        rw [tabulate_get?]
        have : ¬ (0 ≤ (j : Int) ∧ (j : Int) < (j : Int)) := by omega
        rw [if_neg this]
      have hk : (j : Int) ∉ (tabulate j (fun k =>
          (bucketIndices j n k).map (fun i => mk i ((i : Int).tmod s)))).keys := by
        rw [tabulate_keys]
        simp
      rw [hget, HostMap.set_of_not_mem _ _ _ hk, tabulate_succ]
      congr 1
      refine congrArg₂ (fun a b => a ++ b) ?_ ?_
      · apply tabulate_congr
        intro k hkj
        rw [bucketIndices_succ]
        have hne : ¬ j % n = k := by omega
        simp [hne]
      · rw [bucketIndices_succ, bucketIndices_of_le j n j (le_refl _), if_pos hjn]
        simp only [List.nil_append, List.map_cons, List.map_nil, hmod j, hjn, Option.getD_none]
    · have hmin : min j n = n := Nat.min_eq_right (by omega)
      have hmin1 : min (j + 1) n = n := Nat.min_eq_right (by omega)
      rw [hmin, hmin1]
      have hget : (tabulate n (fun k =>
          (bucketIndices j n k).map (fun i => mk i ((i : Int).tmod s)))).get?
            ((j % n : Nat) : Int)
          = some ((bucketIndices j n (j % n)).map (fun i => mk i ((i : Int).tmod s))) := by
        rw [tabulate_get?]
        have : 0 ≤ ((j % n : Nat) : Int) ∧ ((j % n : Nat) : Int) < n := by omega
        rw [if_pos this, Int.toNat_ofNat]
      rw [hget, tabulate_set _ _ _ hlt]
      congr 1
      apply tabulate_congr
      intro k _
      rw [bucketIndices_succ]
      by_cases h : j % n = k
      · subst h
        simp [hmod]
      · have h1 : k ≠ j % n := fun e => h e.symm
        simp [Function.update, h, h1]

theorem tmod_neg_interval (s : Int) (hs : s < 0) (i : Nat) :
    (i : Int).tmod s = ((i % (-s).toNat : Nat) : Int) := by
  have h1 : s = -(((-s).toNat : Nat) : Int) := by omega
  rw [Int.ofNat_tmod]
  conv_lhs => rw [h1, Int.tmod_neg]

theorem newHostsSimulator_neg_eq {M : Type} (c : Collaborators M) (rnd : Nat → Int)
    (start : Time) (hostCount s : Int) (hs : s < 0) :
    NewHostsSimulator c rnd hostCount s start =
      .ok { hosts := tabulate (min hostCount.toNat (-s).toNat) (fun k =>
              (bucketIndices hostCount.toNat (-s).toNat k).map
                (fun i => hostAt c rnd start i ((i : Int).tmod s))),
            scrapeIntervalSeconds := s } := by
  unfold NewHostsSimulator buildHosts
  have halloc : allocBuckets hostCount s = (.ok [] : Except Fault (HostMap (Host M))) := by
    unfold allocBuckets
    have h0 : s.toNat = 0 := by omega
    rw [h0]
    rfl
  rw [halloc]
  show Except.map _ (placeHosts _ hostCount s []) = _
  rw [placeHosts_nil_eq _ hostCount s (-s).toNat (by omega) (by omega) (tmod_neg_interval s hs)]
  rfl

/-- C18, as amended: for `scrapeIntervalSeconds < 0` and `hostCount > 0` the constructor
returns a pool; the remainder `j % scrapeIntervalSeconds` is `j mod |scrapeIntervalSeconds|`;
exactly the offsets `0 .. min(hostCount, |scrapeIntervalSeconds|) - 1` have buckets, and the
bucket of offset `k` is not empty and holds the hosts of the indices `j < hostCount` with
`j mod |scrapeIntervalSeconds| = k`, in increasing order. On such an offset `Generate` does not
return the nil slice; when every field key of the current points of the bucket has a value of
a supported kind it returns a slice and ticks every host of the bucket by
`time.Duration(scrapeIntervalSeconds) * time.Second`, which is `scrapeIntervalSeconds`
seconds, a negative duration, when `scrapeIntervalSeconds >= -9223372036`. -/
theorem newHostsSimulator_negative_interval {M : Type} (c : Collaborators M) (rnd : Nat → Int)
    (start : Time) (hostCount scrapeIntervalSeconds : Int) (hc : 0 < hostCount)
    (hs : scrapeIntervalSeconds < 0) :
    ∃ h : HostsSimulator M,
      NewHostsSimulator c rnd hostCount scrapeIntervalSeconds start = .ok h ∧
      h.scrapeIntervalSeconds = scrapeIntervalSeconds ∧
      (∀ j : Nat, (j : Int).tmod scrapeIntervalSeconds =
        ((j % (-scrapeIntervalSeconds).toNat : Nat) : Int)) ∧
      h.hosts.keys =
        (List.range (min hostCount.toNat (-scrapeIntervalSeconds).toNat)).map
          (fun (k : Nat) => (k : Int)) ∧
      (∀ k : Int, k < 0 ∨ min hostCount (-scrapeIntervalSeconds) ≤ k → h.hosts.get? k = none) ∧
      (∀ k : Int, 0 ≤ k → k < min hostCount (-scrapeIntervalSeconds) →
        ∃ hosts, h.hosts.get? k = some hosts ∧ hosts ≠ [] ∧
          hosts = (bucketIndices hostCount.toNat (-scrapeIntervalSeconds).toNat k.toNat).map
            (fun j => hostAt c rnd start j ((j : Int).tmod scrapeIntervalSeconds)) ∧
          (Generate c h k).1 ≠ .ok none ∧
          ((∀ host ∈ hosts, ∀ m ∈ host.SimulatedMeasurements,
              (currentPoint c m).supported = true) →
            (∃ series, (Generate c h k).1 = .ok (some series)) ∧
            (Generate c h k).2.hosts.get? k =
              some (hosts.map (fun host =>
                host.TickAll c (secondsDuration scrapeIntervalSeconds))))) ∧
      (-9223372036 ≤ scrapeIntervalSeconds →
        secondsDuration scrapeIntervalSeconds = scrapeIntervalSeconds * 1000000000 ∧
        secondsDuration scrapeIntervalSeconds < 0) := by
  obtain ⟨pool, hpool⟩ : ∃ p : HostsSimulator M, p =
      { hosts := tabulate (min hostCount.toNat (-scrapeIntervalSeconds).toNat) (fun k =>
          (bucketIndices hostCount.toNat (-scrapeIntervalSeconds).toNat k).map
            (fun i => hostAt c rnd start i ((i : Int).tmod scrapeIntervalSeconds))),
        scrapeIntervalSeconds := scrapeIntervalSeconds } := ⟨_, rfl⟩
  have hnew : NewHostsSimulator c rnd hostCount scrapeIntervalSeconds start = .ok pool := by
    rw [hpool]
    exact newHostsSimulator_neg_eq c rnd start hostCount scrapeIntervalSeconds hs
  have hps : pool.scrapeIntervalSeconds = scrapeIntervalSeconds := by rw [hpool]
  have hph : pool.hosts = tabulate (min hostCount.toNat (-scrapeIntervalSeconds).toNat) (fun k =>
          (bucketIndices hostCount.toNat (-scrapeIntervalSeconds).toNat k).map
            (fun i => hostAt c rnd start i ((i : Int).tmod scrapeIntervalSeconds))) := by
    rw [hpool]
  have hmin : ((min hostCount.toNat (-scrapeIntervalSeconds).toNat : Nat) : Int) =
      min hostCount (-scrapeIntervalSeconds) := by
    rw [Nat.cast_min, Int.toNat_of_nonneg hc.le, Int.toNat_of_nonneg (by omega)]
  refine ⟨pool, hnew, hps, tmod_neg_interval _ hs, ?_, ?_, ?_, ?_⟩
  · rw [hph]
    exact tabulate_keys _ _
  · intro k hk
    rw [hph, tabulate_get?, hmin, if_neg (by omega)]
  · intro k h0 h1
    have hget : pool.hosts.get? k =
        some ((bucketIndices hostCount.toNat (-scrapeIntervalSeconds).toNat k.toNat).map
          (fun j => hostAt c rnd start j ((j : Int).tmod scrapeIntervalSeconds))) := by
      rw [hph, tabulate_get?, hmin, if_pos ⟨h0, h1⟩]
    have hmem : k.toNat ∈ bucketIndices hostCount.toNat (-scrapeIntervalSeconds).toNat k.toNat := by
      rw [mem_bucketIndices]
      have hk1 : k < hostCount := lt_of_lt_of_le h1 (min_le_left _ _)
      have hk2 : k < -scrapeIntervalSeconds := lt_of_lt_of_le h1 (min_le_right _ _)
      exact ⟨by omega, Nat.mod_eq_of_lt (by omega)⟩
    refine ⟨_, hget, ?_, rfl, generate_ne_none c pool k _ hget, ?_⟩
    · intro hnil
      rw [List.map_eq_nil_iff] at hnil
      rw [hnil] at hmem
      cases hmem
    · intro hsup
      have hok := generate_supported c pool k _ hget hsup
      have hstate := generate_ok_state c pool k _ _ hget hok
      rw [hps] at hstate
      exact ⟨⟨_, hok⟩, hstate⟩
  · intro hb
    have := secondsDuration_eq scrapeIntervalSeconds hb (by omega)
    rw [this]
    exact ⟨rfl, mul_neg_of_neg_of_pos hs (by norm_num)⟩

theorem newHostsSimulator_negative_interval_witness :
    (0 : Int) < 5 ∧ (-2 : Int) < 0 ∧
    indexBuckets 5 (-2) = .ok [(0, [0, 2, 4]), (1, [1, 3])] ∧
    ∃ h : HostsSimulator Point,
      NewHostsSimulator sampleCollaborators (fun _ => 0) 5 (-2) ⟨0⟩ = .ok h ∧
      h.scrapeIntervalSeconds = -2 ∧
      h.hosts.keys = [0, 1] ∧
      secondsDuration (-2) = -2 * 1000000000 ∧
      secondsDuration (-2) < 0 := by
  obtain ⟨h, hnew, hs, _, hkeys, _, _, hd⟩ :=
    newHostsSimulator_negative_interval sampleCollaborators (fun _ => 0) ⟨0⟩ 5 (-2)
      (by decide) (by decide)
  exact ⟨by decide, by decide, rfl, h, hnew, hs, hkeys, (hd (by decide)).1, (hd (by decide)).2⟩

/-- The claim C18 fails as it is stated: on the pool built for one host and an interval of
`-10000000000` seconds the call `Generate(0)` returns a slice and ticks the host by
`8446744073709551616` nanoseconds, a positive duration: the time of the host moves forward
from `0`, not backwards by `10000000000` seconds. The duration
`time.Duration(-10000000000) * time.Second` wraps at 64 bits. And on the pool built for one
host and an interval of `-1` second, with a host that reports a string field, `Generate(0)`
panics and returns no slice. -/
theorem newHostsSimulator_negative_interval_counterexample :
    (∃ h : HostsSimulator Point,
      NewHostsSimulator sampleCollaborators (fun _ => 0) 1 (-10000000000) ⟨0⟩ = .ok h ∧
      h.scrapeIntervalSeconds = -10000000000 ∧
      h.hosts.get? 0 = some [sampleHost "host_0" [cpuPoint ⟨0⟩]] ∧
      (∃ series, (Generate sampleCollaborators h 0).1 = .ok (some series)) ∧
      secondsDuration (-10000000000) = 8446744073709551616 ∧
      (Generate sampleCollaborators h 0).2.hosts.get? 0 =
        some [sampleHost "host_0" [cpuPoint ⟨8446744073709551616⟩]] ∧
      (0 : Int) < 8446744073709551616) ∧
    (∃ h : HostsSimulator Point,
      NewHostsSimulator stringCollaborators (fun _ => 0) 1 (-1) ⟨0⟩ = .ok h ∧
      h.hosts.get? 0 = some stringBucket ∧
      (Generate stringCollaborators h 0).1 =
        .error (.panic "Cannot field hostname with value type: string with ")) :=
  ⟨⟨_, rfl, rfl, rfl, ⟨_, rfl⟩, rfl, rfl, by decide⟩, ⟨_, rfl, rfl, rfl⟩⟩

/-! ## The pool after a panic -/

theorem pointSeries_panic {M : Type} (c : Collaborators M) (host : Host M) (p : Point)
    (msg : String) (h : pointSeries c host p 0 p.FieldKeys = .error (.panic msg)) :
    ∃ f ∈ p.fields, f.2.supported = false := by
  rw [pointSeries_zero] at h
  cases hr : readResult c (p.fields.map (fun f =>
      ({ host := host, point := p, fieldName := f.1, value := f.2 } : FieldRead M))) with
  | error e =>
    unfold readResult at hr
    cases hf : (p.fields.map (fun f =>
        ({ host := host, point := p, fieldName := f.1, value := f.2 } : FieldRead M))).find?
          (fun x => !x.value.supported) with
    | none => rw [hf] at hr; cases hr
    | some x =>
      have hmem := List.mem_of_find?_eq_some hf
      have hbad := List.find?_some hf
      obtain ⟨f, hfm, rfl⟩ := List.mem_map.mp hmem
      exact ⟨f, hfm, by simpa using hbad⟩
  | ok series =>
    rw [hr] at h
    simp only at h
    split at h <;> cases h

theorem hostSeries_panic {M : Type} (c : Collaborators M) (host : Host M) (ms : List M)
    (msg : String) (h : hostSeries c host ms = .error (.panic msg)) :
    ∃ x ∈ hostFields c host ms, x.value.supported = false := by
  induction ms with
  | nil => cases h
  | cons m rest ih =>
    simp only [hostSeries] at h
    cases hp : pointSeries c host (currentPoint c m) 0 (currentPoint c m).FieldKeys with
    | error e =>
      rw [hp] at h
      simp only at h
      have he : e = .panic msg := Except.error.inj h
      rw [he] at hp
      obtain ⟨f, hf, hbad⟩ := pointSeries_panic c host _ msg hp
      exact ⟨_, (mem_hostFields c host _ _).mpr ⟨m, List.mem_cons_self _ _, f, hf, rfl⟩, hbad⟩
    | ok a =>
      rw [hp] at h
      simp only at h
      cases hr : hostSeries c host rest with
      | ok b => rw [hr] at h; cases h
      | error e =>
        rw [hr] at h
        simp only at h
        have he : e = .panic msg := Except.error.inj h
        rw [he] at hr
        obtain ⟨x, hx, hbad⟩ := ih hr
        obtain ⟨m1, hm1, f, hf, hxe⟩ := (mem_hostFields c host rest x).mp hx
        exact ⟨x, (mem_hostFields c host _ x).mpr ⟨m1, List.mem_cons_of_mem _ hm1, f, hf, hxe⟩,
          hbad⟩

theorem hostSeries_ok_supported {M : Type} (c : Collaborators M) (host : Host M) (ms : List M)
    (series : List TimeSeries) (h : hostSeries c host ms = .ok series) :
    ∀ x ∈ hostFields c host ms, x.value.supported = true := by
  have hwf := hostSeries_wellFormed c host ms series h
  rw [hostSeries_eq c host ms hwf] at h
  exact (readResult_ok c _ series h).1

theorem generateHosts_panic_pre {M : Type} (c : Collaborators M) (d : Duration)
    (pre rest : List (Host M)) (msg : String)
    (hpre : ∀ x ∈ bucketFields c pre, x.value.supported = true)
    (h : (generateHosts c d (pre ++ rest)).1 = .error (.panic msg)) :
    (∀ x ∈ pre, ∃ series, hostSeries c x x.SimulatedMeasurements = .ok series) ∧
      (generateHosts c d rest).1 = .error (.panic msg) := by
  induction pre with
  | nil => exact ⟨by simp, h⟩
  | cons a pre1 ih =>
    have hpre1 : ∀ x ∈ bucketFields c pre1, x.value.supported = true := by
      intro x hx
      apply hpre
      simp only [bucketFields, List.flatMap_cons, List.mem_append] at hx ⊢
      exact Or.inr hx
    have hpa : ∀ x ∈ hostFields c a a.SimulatedMeasurements, x.value.supported = true := by
      intro x hx
      apply hpre
      simp only [bucketFields, List.flatMap_cons, List.mem_append]
      exact Or.inl hx
    rw [List.cons_append] at h
    unfold generateHosts at h
    cases ha : hostSeries c a a.SimulatedMeasurements with
    | error e =>
      rw [ha] at h
      simp only at h
      have he : e = .panic msg := Except.error.inj h
      rw [he] at ha
      obtain ⟨x, hx, hbad⟩ := hostSeries_panic c a _ msg ha
      rw [hpa x hx] at hbad
      cases hbad
    | ok sa =>
      rw [ha] at h
      simp only at h
      rcases hr : generateHosts c d (pre1 ++ rest) with ⟨r, rest1⟩
      rw [hr] at h
      cases r with
      | ok b => cases h
      | error e =>
        simp only at h
        have hrest := ih hpre1 (by rw [hr]; exact h)
        refine ⟨?_, hrest.2⟩
        intro x hx
        rcases List.mem_cons.mp hx with e1 | e1
        · subst e1
          exact ⟨sa, ha⟩
        · exact hrest.1 x e1

/-- C19, as amended: when `Generate` panics with the message of the type switch, and the first
field of an unsupported kind belongs to the host at position `p` of the bucket (no host before
it has such a field, and it has one), the pool after the panic holds the hosts at the positions
`0 .. p - 1` ticked by `time.Duration(scrapeIntervalSeconds) * time.Second`, and the host at
position `p` and the later hosts as they were; that duration is `scrapeIntervalSeconds` seconds
when `-9223372036 <= scrapeIntervalSeconds <= 9223372036`. -/
theorem generate_abort_state {M : Type} (c : Collaborators M) (h : HostsSimulator M)
    (offsetSeconds : Int) (pre : List (Host M)) (host : Host M) (post : List (Host M))
    (msg : String)
    (hg : h.hosts.get? offsetSeconds = some (pre ++ host :: post))
    (hpanic : (Generate c h offsetSeconds).1 = .error (.panic msg))
    (hpre : ∀ x ∈ bucketFields c pre, x.value.supported = true)
    (hbad : ∃ x ∈ hostFields c host host.SimulatedMeasurements, x.value.supported = false) :
    (Generate c h offsetSeconds).2.hosts.get? offsetSeconds =
      some (pre.map (fun x => x.TickAll c (secondsDuration h.scrapeIntervalSeconds)) ++
        host :: post) ∧
    (-9223372036 ≤ h.scrapeIntervalSeconds → h.scrapeIntervalSeconds ≤ 9223372036 →
      (Generate c h offsetSeconds).2.hosts.get? offsetSeconds =
        some (pre.map (fun x => x.TickAll c (h.scrapeIntervalSeconds * 1000000000)) ++
          host :: post)) := by
  rw [generate_of_some c h offsetSeconds _ hg] at hpanic ⊢
  simp only at hpanic ⊢
  have hres : (generateHosts c (secondsDuration h.scrapeIntervalSeconds)
      (pre ++ host :: post)).1 = .error (.panic msg) := by
    cases hr : (generateHosts c (secondsDuration h.scrapeIntervalSeconds)
        (pre ++ host :: post)).1 with
    | ok ss => rw [hr] at hpanic; cases hpanic
    | error e =>
      rw [hr] at hpanic
      exact congrArg Except.error (Except.error.inj hpanic)
  have hpreok := (generateHosts_panic_pre c _ pre (host :: post) msg hpre hres).1
  have hhost : ∃ e, hostSeries c host host.SimulatedMeasurements = .error e := by
    cases hh : hostSeries c host host.SimulatedMeasurements with
    | error e => exact ⟨e, rfl⟩
    | ok ss =>
      obtain ⟨x, hx, hxbad⟩ := hbad
      rw [hostSeries_ok_supported c host _ ss hh x hx] at hxbad
      cases hxbad
  obtain ⟨e, he⟩ := hhost
  have hstate : (Generate c h offsetSeconds).2.hosts.get? offsetSeconds =
      some (pre.map (fun x => x.TickAll c (secondsDuration h.scrapeIntervalSeconds)) ++
        host :: post) := by
    rw [generate_of_some c h offsetSeconds _ hg]
    simp only
    rw [HostMap.get?_set, if_pos rfl, generateHosts_abort_at c _ pre host post e hpreok he]
  rw [generate_of_some c h offsetSeconds _ hg] at hstate
  simp only at hstate
  refine ⟨hstate, ?_⟩
  intro h1 h2
  rw [hstate, secondsDuration_eq _ h1 h2]

theorem generate_abort_state_witness :
    mixedPool.hosts.get? 0 =
      some ([sampleHost "host_0" [cpuPoint ⟨0⟩]] ++
        sampleHost "host_1" [stringPoint ⟨0⟩] :: [sampleHost "host_2" [cpuPoint ⟨0⟩]]) ∧
    (Generate sampleCollaborators mixedPool 0).1 =
      .error (.panic "Cannot field hostname with value type: string with ") ∧
    (Generate sampleCollaborators mixedPool 0).2.hosts.get? 0 =
      some ([sampleHost "host_0" [cpuPoint ⟨0⟩]].map
          (fun x => x.TickAll sampleCollaborators (secondsDuration mixedPool.scrapeIntervalSeconds)) ++
        sampleHost "host_1" [stringPoint ⟨0⟩] :: [sampleHost "host_2" [cpuPoint ⟨0⟩]]) ∧
    (Generate sampleCollaborators mixedPool 0).2.hosts.get? 0 =
      some [sampleHost "host_0" [cpuPoint ⟨1000000000⟩], sampleHost "host_1" [stringPoint ⟨0⟩],
        sampleHost "host_2" [cpuPoint ⟨0⟩]] :=
  ⟨rfl, rfl,
    (generate_abort_state sampleCollaborators mixedPool 0 [sampleHost "host_0" [cpuPoint ⟨0⟩]]
      (sampleHost "host_1" [stringPoint ⟨0⟩]) [sampleHost "host_2" [cpuPoint ⟨0⟩]]
      "Cannot field hostname with value type: string with " rfl rfl (by decide) (by decide)).1,
    rfl⟩

theorem bucketIndices_wrap (n : Nat) (hn : 0 < n) : bucketIndices (n + 1) n 0 = [0, n] := by
  rw [bucketIndices_succ, bucketIndices_small n n 0 hn (le_refl _), Nat.mod_self, if_pos rfl]
  rfl

/-- The claim C19 fails as it is stated: for `9223372038` hosts and an interval of
`9223372037` seconds the bucket of offset `0` holds the hosts of the indices `0` and
`9223372037`; the second reports a string field, so `Generate(0)` panics at position `1`. The
host at position `0` has then been ticked by `-9223372036709551616` nanoseconds, not by
`9223372037` seconds: the duration `time.Duration(9223372037) * time.Second` wraps at 64
bits. -/
theorem generate_abort_state_counterexample :
    ∃ h : HostsSimulator Point,
      NewHostsSimulator seedCollaborators (oneAt 18446744074) 9223372038 9223372037 ⟨0⟩ =
        .ok h ∧
      h.scrapeIntervalSeconds = 9223372037 ∧
      h.hosts.get? 0 =
        some [sampleHost "host_0" [cpuPoint ⟨0⟩], sampleHost "host_0" [stringPoint ⟨0⟩]] ∧
      (Generate seedCollaborators h 0).1 =
        .error (.panic "Cannot field hostname with value type: string with ") ∧
      (Generate seedCollaborators h 0).2.hosts.get? 0 =
        some [sampleHost "host_0" [cpuPoint ⟨-9223372036709551616⟩],
          sampleHost "host_0" [stringPoint ⟨0⟩]] ∧
      (-9223372036709551616 : Int) ≠ 0 + 9223372037 * 1000000000 := by
  obtain ⟨pool, hpool⟩ : ∃ p : HostsSimulator Point, p =
      { hosts := tabulate (9223372037 : Int).toNat (fun k =>
          (bucketIndices (9223372038 : Int).toNat (9223372037 : Int).toNat k).map
            (fun i => hostAt seedCollaborators (oneAt 18446744074) ⟨0⟩ i
              ((i : Int).tmod 9223372037))),
        scrapeIntervalSeconds := 9223372037 } := ⟨_, rfl⟩
  have hnew : NewHostsSimulator seedCollaborators (oneAt 18446744074) 9223372038 9223372037
      ⟨0⟩ = .ok pool := by
    rw [hpool]
    exact newHostsSimulator_eq seedCollaborators (oneAt 18446744074) ⟨0⟩ 9223372038 9223372037
      (by decide) (by decide)
  have hps : pool.scrapeIntervalSeconds = 9223372037 := by rw [hpool]
  have hget0 : (tabulate (9223372037 : Int).toNat (fun k =>
        (bucketIndices (9223372038 : Int).toNat (9223372037 : Int).toNat k).map
          (fun i => hostAt seedCollaborators (oneAt 18446744074) ⟨0⟩ i
            ((i : Int).tmod 9223372037)))).get? 0 =
      some [sampleHost "host_0" [cpuPoint ⟨0⟩], sampleHost "host_0" [stringPoint ⟨0⟩]] := by
    rw [tabulate_get?, if_pos ⟨by decide, by decide⟩]
    have e1 : (9223372038 : Int).toNat = (9223372037 : Int).toNat + 1 := by decide
    have e2 : (0 : Int).toNat = 0 := rfl
    rw [e1, e2, bucketIndices_wrap _ (by decide)]
    rfl
  have hget : pool.hosts.get? 0 =
      some [sampleHost "host_0" [cpuPoint ⟨0⟩], sampleHost "host_0" [stringPoint ⟨0⟩]] := by
    rw [hpool]
    dsimp only
    exact hget0
  have hgen := generate_of_some seedCollaborators pool 0 _ hget
  rw [hps] at hgen
  have hval : generateHosts seedCollaborators (secondsDuration 9223372037)
      [sampleHost "host_0" [cpuPoint ⟨0⟩], sampleHost "host_0" [stringPoint ⟨0⟩]] =
      (.error (.panic "Cannot field hostname with value type: string with "),
        [sampleHost "host_0" [cpuPoint ⟨-9223372036709551616⟩],
          sampleHost "host_0" [stringPoint ⟨0⟩]]) := rfl
  rw [hval] at hgen
  refine ⟨pool, hnew, hps, hget, ?_, ?_, by decide⟩
  · rw [hgen]
    rfl
  · rw [hgen]
    simp only
    rw [HostMap.get?_set, if_pos rfl]

end Generators
